import Mathlib

/-!
Cyberprobe: a verification development.

A shallow embedding of parts of the cyberprobe headers

* `include/cyberprobe/protocol/http.h`   (`http_parser`)
* `include/cyberprobe/analyser/engine.h` (`engine`)
* `include/cyberprobe/probe/sender.h`    (`sender`, `nhis11_sender`, `etsi_li_sender`)
* `include/cyberprobe/protocol/tcp.h`    (`tcp_segment`, `tcp_context`)
* `include/cyberprobe/protocol/ip.h`     (`ip4_context`, `ip6_context`)
* `include/cyberprobe/protocol/smtp_auth_context.h` (`smtp_auth_context`)

together with theorems about them.  C++ `std::string` values are Lean strings,
`std::map` values are association lists, mutable objects are passed explicitly,
and exceptions are values of `Except`.
-/

namespace Cyberprobe

/-! ## Definitions -/

/-! ### http.h: `http_parser::normalise_url` -/

/-- The bracket expression `[a-zA-Z]` of the regular expression in `normalise_url`. -/
def class_azAZ (c : Char) : Bool :=
  (decide ('a' ≤ c) && decide (c ≤ 'z')) || (decide ('A' ≤ c) && decide (c ≤ 'Z'))

/-- Matcher for `X+` followed by the continuation `k`, where `X` is the character class `p`:
one character of the class, then either more of them (greedy) or the rest of the pattern. -/
def regex_plus (p : Char → Bool) (k : List Char → Bool) : List Char → Bool
  | [] => false
  | c :: cs => p c && (regex_plus p k cs || k cs)

/-- Matcher for the literal character `x` followed by the continuation `k`. -/
def regex_char (x : Char) (k : List Char → Bool) : List Char → Bool
  | [] => false
  | c :: cs => (c == x) && k cs

/-- The end of the pattern: `regex_search` accepts whatever input follows the match. -/
def regex_accept : List Char → Bool := fun _ => true

/-- The call `regex_search(url, what, already_normalised, match_continuous)` with
`already_normalised("[a-zA-Z]+:")`: the match has to start at the first character of `url`. -/
def already_normalised (url : String) : Bool :=
  regex_plus class_azAZ (regex_char ':' regex_accept) url.data

/-- The method `http_parser::normalise_url(host, url, out)`; the result is the value left
in `out`. -/
def normalise_url (host url : String) : String :=
  if already_normalised url then url
  else "http://" ++ host ++ url

/-- The wording of the specification: the target begins with one or more ASCII letters
immediately followed by a colon. -/
def begins_with_scheme (url : String) : Prop :=
  ∃ letters rest : List Char,
    letters ≠ [] ∧ (∀ c ∈ letters, c.isAlpha = true) ∧ url.data = letters ++ ':' :: rest

/-! ### http.h: the fields of `http_parser` and `reset_transaction` -/

/-- The enumeration `http_parser::variant_t`. -/
inductive variant_t
  | REQUEST | RESPONSE
  deriving DecidableEq, Repr

/-- The unnamed enumeration behind the member `http_parser::state`. -/
inductive state_t
  | IN_REQUEST_METHOD | IN_REQUEST_URL | IN_REQUEST_PROTOCOL | POST_REQUEST_PROTOCOL_EXP_NL
  | IN_RESPONSE_PROTOCOL | IN_RESPONSE_CODE | IN_RESPONSE_STATUS | POST_RESPONSE_STATUS_EXP_NL
  | MAYBE_KEY | IN_KEY | POST_KEY_EXP_SPACE | IN_VALUE | POST_VALUE_EXP_NL | POST_HEADER_EXP_NL
  | IN_BODY | IN_BODY_AFTER_CR
  | COUNTING_DATA
  | PRE_CHUNK_LENGTH | IN_CHUNK_LENGTH | POST_CHUNK_LENGTH_EXP_NL | COUNTING_CHUNK_DATA
  | POST_CHUNKED_EXP_NL
  | STREAMING
  deriving DecidableEq, Repr

/-- The type `http_hdr_t`, a `std::map` from a key to a pair of strings. -/
abbrev http_hdr_t := List (String × (String × String))

/-- The type `pdu` (declared in `pdu.h`): a vector of unsigned characters. -/
abbrev pdu := List Nat

/-- The data members of the class `http_parser` (named `http_parser_t` here). -/
structure http_parser_t where
  variant : variant_t
  state : state_t
  protocol : String
  method : String
  url : String
  code : String
  codeval : Int
  status : String
  header : http_hdr_t
  key : String
  value : String
  chunk_length : String
  content_remaining : Nat
  body : pdu
  deriving DecidableEq, Repr

/-- The method `http_parser::reset_transaction()`. -/
def http_parser_t.reset_transaction (hp : http_parser_t) : http_parser_t :=
  { hp with
    protocol := "", method := "", url := "", code := "", status := "",
    body := [],
    header := [] }

/-! ### A `std::map` as an association list -/

/-- The lookup `m.find(k)`; `none` stands for `m.end()`. -/
def map_find {K V : Type} [DecidableEq K] : List (K × V) → K → Option V
  | [], _ => none
  | (k1, v1) :: m, k => if k1 = k then some v1 else map_find m k

/-- The assignment `m[k] = v`: the entry of `k` is overwritten, or added when there is none. -/
def map_insert {K V : Type} [DecidableEq K] : List (K × V) → K → V → List (K × V)
  | [], k, v => [(k, v)]
  | (k1, v1) :: m, k, v => if k1 = k then (k, v) :: m else (k1, v1) :: map_insert m k v

/-- The call `m.erase(k)`: every entry with key `k` is removed. -/
def map_erase {K V : Type} [DecidableEq K] : List (K × V) → K → List (K × V)
  | [], _ => []
  | (k1, v1) :: m, k => if k1 = k then map_erase m k else (k1, v1) :: map_erase m k

/-- A write through a reference to the value stored under `k`: the entry is changed in
place, and a map without the key is left as it is. -/
def map_update {K V : Type} [DecidableEq K] : List (K × V) → K → (V → V) → List (K × V)
  | [], _, _ => []
  | (k1, v1) :: m, k, f => if k1 = k then (k1, f v1) :: m else (k1, v1) :: map_update m k f

/-! ### event.h -/

/-- The enumeration `event::action_type`. -/
inductive action_type
  | CONNECTION_UP | CONNECTION_DOWN | TRIGGER_UP | TRIGGER_DOWN
  | UNRECOGNISED_STREAM | UNRECOGNISED_DATAGRAM
  | ICMP | IMAP | IMAP_SSL | POP3 | POP3_SSL | RTP | RTP_SSL
  | SIP_REQUEST | SIP_RESPONSE | SIP_SSL
  | SMTP_AUTH | SMTP_COMMAND | SMTP_RESPONSE | SMTP_DATA
  | HTTP_REQUEST | HTTP_RESPONSE | FTP_COMMAND | FTP_RESPONSE
  | DNS_MESSAGE | NTP_TIMESTAMP_MESSAGE | NTP_CONTROL_MESSAGE | NTP_PRIVATE_MESSAGE
  | GRE_MESSAGE | GRE_PPTP_MESSAGE | ESP | UNRECOGNISED_IP_PROTOCOL | WLAN
  | TLS_UNKNOWN | TLS_CLIENT_HELLO | TLS_SERVER_HELLO | TLS_CERTIFICATES
  | TLS_SERVER_KEY_EXCHANGE | TLS_SERVER_HELLO_DONE | TLS_HANDSHAKE_GENERIC
  | TLS_CERTIFICATE_REQUEST | TLS_CLIENT_KEY_EXCHANGE | TLS_CERTIFICATE_VERIFY
  | TLS_CHANGE_CIPHER_SPEC | TLS_HANDSHAKE_FINISHED | TLS_HANDSHAKE_COMPLETE
  | TLS_APPLICATION_DATA
  deriving DecidableEq, Repr

/-- The C structure `timeval`. -/
structure timeval where
  tv_sec : Int
  tv_usec : Int
  deriving DecidableEq, Repr

/-- Modelled from the spec: the layer tag of an address (`address.h` is not among the
sources): "link, ip4, ip6, tcp, udp, application". -/
inductive layer_tag
  | LINK | IP4 | IP6 | TCP | UDP | APPLICATION
  deriving DecidableEq, Repr

/-- Modelled from the spec: the address classes (`socket.h` and `address.h` are not among
the sources): "a layer tag and an opaque byte string". -/
structure address where
  layer : layer_tag
  bytes : List Nat
  deriving DecidableEq, Repr

/-- Modelled from the spec: a flow address (`address.h` is not among the sources): "an
ordered pair `(src_address, dst_address)`". -/
structure flow_address where
  src : address
  dest : address
  deriving DecidableEq, Repr

/-- Modelled from the spec: the classes `event::trigger_up` and `event::trigger_down` of
`event_implementations.h`, which is not among the sources; `engine.h` builds them as
`trigger_up(device, addr, tv)` and `trigger_down(device, tv)`.  The identifier that the
constructor of `event` draws from the generator is left out. -/
inductive event
  | trigger_up (device : String) (addr : address) (time : timeval)
  | trigger_down (device : String) (time : timeval)
  deriving DecidableEq, Repr

/-- The member `event::action` of a trigger event. -/
def event.action : event → action_type
  | .trigger_up _ _ _ => .TRIGGER_UP
  | .trigger_down _ _ => .TRIGGER_DOWN

/-! ### engine.h -/

/-- The type `engine::root_id`: the pair of a device and a network. -/
abbrev root_id := String × String

/-- Modelled from the spec: the class `root_context` of `context.h`, which is not among the
sources: the root "has no parent and stores the trigger address (the observed target), if
any", and owns a map of children keyed by flow address (here the keys of that map). -/
structure root_context where
  device : String
  network : String
  trigger_address : Option address
  children : List flow_address
  deriving DecidableEq, Repr

/-- Modelled from the spec: the root that is "created lazily" for a device and a network,
without a trigger address and without children. -/
def root_context.create (device network : String) : root_context :=
  { device := device, network := network, trigger_address := none, children := [] }

/-- Modelled from the spec: the method `root_context::set_trigger_address` of `context.h`,
which is not among the sources: it stores the trigger address in the root. -/
def root_context.set_trigger_address (rc : root_context) (a : address) : root_context :=
  { rc with trigger_address := some a }

/-- The state of an `engine`: the member `contexts`, and the events that were handed to the
event sink through `handle`, the oldest first. -/
structure engine where
  contexts : List (root_id × root_context)
  handled : List event
  deriving DecidableEq, Repr

/-- Modelled from the spec: the method `handle` of the `manager` interface, the "sink
receiving decoded events" (`manager.h` is not among the sources): the event is recorded. -/
def engine.handle (e : engine) (ev : event) : engine :=
  { e with handled := e.handled ++ [ev] }

/-- Modelled from the spec: the method `engine::get_root_context`, declared in `engine.h`
with its body outside the sources: "locate or create the root context for
`(device, network)`".  The returned pointer is the key under which the registry owns the
root. -/
def engine.get_root_context (e : engine) (device network : String) : engine × root_id :=
  match map_find e.contexts (device, network) with
  | some _ => (e, (device, network))
  | none =>
    ({ e with contexts := map_insert e.contexts (device, network)
                            (root_context.create device network) },
      (device, network))

/-- Modelled from the spec: the method `engine::close_root_context`, declared in `engine.h`
with its body outside the sources: it "removes the root atomically from the registry". -/
def engine.close_root_context (e : engine) (device network : String) : engine :=
  { e with contexts := map_erase e.contexts (device, network) }

/-- The method `engine::target_up(device, network, addr, tv)`. -/
def engine.target_up (e : engine) (device network : String) (addr : address)
    (tv : timeval) : engine :=
  -- Get the root context for this device.
  let (e1, c) := e.get_root_context device network
  -- Record the known address.
  let e2 : engine :=
    { e1 with contexts := map_update e1.contexts c (fun rc => rc.set_trigger_address addr) }
  -- This is a reportable event.
  e2.handle (event.trigger_up device addr tv)

/-- The method `engine::target_down(device, network, tv)`. -/
def engine.target_down (e : engine) (device network : String) (tv : timeval) : engine :=
  let e1 := e.close_root_context device network
  -- This is a reportable event.
  e1.handle (event.trigger_down device tv)

/-- The public method `engine::process(device, network, s)`.  The private overload
`process(c, s)`, whose body is outside the sources, is the parameter `decode`. -/
def engine.process {S : Type} (decode : engine → root_id → S → engine) (e : engine)
    (device network : String) (s : S) : engine :=
  let (e1, c) := e.get_root_context device network
  decode e1 c s

/-- The static method `engine::get_context_stack(p, l)`.  The class `context` is declared
in `context.h`, outside the sources, so the contexts are the values of a type `C` and
`parent_lock c` is the value of `c->parent.lock()`: the parent, or `none` (a null pointer)
when the weak reference is empty or expired.  A pointer `p` is `none` when null.  The loop
runs for at most `fuel` rounds; the result is `none` when that is not enough. -/
def get_context_stack {C : Type} (parent_lock : C → Option C) :
    Nat → Option C → List C → Option (List C)
  | _, none, l => some l
  | 0, some _, _ => none
  | fuel + 1, some p, l => get_context_stack parent_lock fuel (parent_lock p) (p :: l)

/-- The context reached from `p` by following `k` parent references. -/
def ancestor {C : Type} (parent_lock : C → Option C) : Nat → C → Option C
  | 0, p => some p
  | k + 1, p => (parent_lock p).bind (ancestor parent_lock k)

/-! ### tcp.h: `tcp_segment` -/

/-- The class `tcp_segment`; `first` and `last` are of type `uint32_t`. -/
structure tcp_segment where
  segment : List Nat
  first : Nat
  last : Nat
  deriving DecidableEq, Repr

/-- The range of the type `uint32_t`. -/
def tcp_segment.in_range (a : tcp_segment) : Prop :=
  a.first < 2 ^ 32 ∧ a.last < 2 ^ 32

/-- The operator `tcp_segment::operator<`. -/
def tcp_segment.lt (a s : tcp_segment) : Bool :=
  decide (a.first < s.first)

/-- Segment `a` starts earlier in the stream than segment `b`, for starting sequence
numbers that are less than `2 ^ 31` apart in modular 32-bit arithmetic: going forward from
the start of `a` reaches the start of `b` in fewer than `2 ^ 31` steps. -/
def earlier_in_stream (a b : tcp_segment) : Prop :=
  a.first ≠ b.first ∧ (b.first + 2 ^ 32 - a.first) % 2 ^ 32 < 2 ^ 31

/-! ### sender.h -/

/-- Modelled from the spec: the class `parameterised` of `parameterised.h`, which is not
among the sources: a set of named parameters, where an absent parameter reads as the
default that the caller supplies. -/
structure parameterised where
  parameters : List (String × String)
  deriving DecidableEq, Repr

/-- Modelled from the spec: the method `parameterised::get_parameter(key, dflt)`. -/
def parameterised.get_parameter (g : parameterised) (key dflt : String) : String :=
  match map_find g.parameters key with
  | some v => v
  | none => dflt

/-- The exception `std::runtime_error` with its message. -/
structure runtime_error where
  what : String
  deriving DecidableEq, Repr

/-- The largest value of the type `unsigned int`. -/
def UINT_MAX : Nat := 4294967295

/-- White space as skipped by a formatted stream extraction. -/
def is_space (c : Char) : Bool :=
  c == ' ' || c == '\t' || c == '\n' || c == '\x0b' || c == '\x0c' || c == '\r'

/-- The value of a sequence of decimal digits. -/
def digits_value (ds : List Char) : Nat :=
  ds.foldl (fun acc c => 10 * acc + (c.toNat - '0'.toNat)) 0

/-- The sign that a numeric field may begin with: whether it is a minus sign, and the
characters after it. -/
def read_sign : List Char → Bool × List Char
  | '-' :: r => (true, r)
  | '+' :: r => (false, r)
  | cs => (false, cs)

/-- The extraction `buf >> num_connects` of the standard library for an `unsigned int` that
holds 0 beforehand and a stream over the string `par`: white space is skipped, a sign is
accepted, the longest run of decimal digits is converted and what follows it is left in
the stream.  Without a digit the value is 0; a value that does not fit is replaced by
`UINT_MAX`; a value after a minus sign is negated modulo `2 ^ 32`. -/
def extract_unsigned (par : String) : Nat :=
  let signed := read_sign (par.data.dropWhile is_space)
  let ds := signed.2.takeWhile Char.isDigit
  if ds = [] then 0
  else if UINT_MAX < digits_value ds then UINT_MAX
  else if signed.1 then (2 ^ 32 - digits_value ds) % 2 ^ 32
  else digits_value ds

/-- The enumeration `qpdu::msg_type`. -/
inductive msg_type_t
  | PDU | TARGET_UP | TARGET_DOWN
  deriving DecidableEq, Repr

/-- Modelled from the spec: the direction of a slice (`pdu.h` is not among the sources):
"`FROM_TARGET` / `TO_TARGET` / `NOT_KNOWN`". -/
inductive direction
  | FROM_TARGET | TO_TARGET | NOT_KNOWN
  deriving DecidableEq, Repr

/-- The class `qpdu`, a packet on the packet queue. -/
structure qpdu where
  msg_type : msg_type_t
  tv : timeval
  device : String
  network : String
  pdu : List Nat
  addr : Option address
  dir : direction
  deriving DecidableEq, Repr

/-- The data members of the base class `sender`; `thr` is `none` for a null pointer. -/
structure sender where
  packets : List qpdu
  running : Bool
  thr : Option Nat
  deriving DecidableEq, Repr

/-- The constructor `sender::sender(p)`. -/
def sender.create : sender :=
  { packets := [], running := true, thr := none }

/-- The data members of `nhis11_sender` that its constructor sets. -/
structure nhis11_sender where
  base : sender
  h : String
  p : Nat
  tls : Bool
  params : List (String × String)
  deriving DecidableEq, Repr

/-- The constructor `nhis11_sender::nhis11_sender(h, p, transp, params, globals)`. -/
def nhis11_sender.create (h : String) (p : Nat) (transp : String)
    (params : List (String × String)) (_globals : parameterised) :
    Except runtime_error nhis11_sender :=
  if transp = "tls" then
    .ok { base := sender.create, h := h, p := p, params := params, tls := true }
  else if transp = "tcp" then
    .ok { base := sender.create, h := h, p := p, params := params, tls := false }
  else
    .error ⟨"Transport " ++ transp ++ " not known."⟩

/-- The data members of `etsi_li_sender` that its constructor sets; `transports` is the
length of the array allocated by `new e_sender[num_connects]`. -/
structure etsi_li_sender where
  base : sender
  num_connects : Nat
  transports : Nat
  h : String
  p : Nat
  params : List (String × String)
  cur_connect : Nat
  tls : Bool
  deriving DecidableEq, Repr

/-- The constructor `etsi_li_sender::etsi_li_sender(h, p, transp, params, globals)`. -/
def etsi_li_sender.create (h : String) (p : Nat) (transp : String)
    (params : List (String × String)) (globals : parameterised) :
    Except runtime_error etsi_li_sender :=
  -- Get value of etsi-streams parameter, default is 12.
  let par := globals.get_parameter "etsi-streams" "12"
  let num_connects := extract_unsigned par
  if num_connects ≤ 0 then
    .error ⟨"Couldn\x27t parse etsi-streams value: " ++ par⟩
  else if transp = "tls" then
    .ok { base := sender.create, num_connects := num_connects, transports := num_connects,
          h := h, p := p, params := params, cur_connect := 0, tls := true }
  else if transp = "tcp" then
    .ok { base := sender.create, num_connects := num_connects, transports := num_connects,
          h := h, p := p, params := params, cur_connect := 0, tls := false }
  else
    .error ⟨"Transport " ++ transp ++ " not known."⟩

/-- The wording of the specification: the value is the decimal numeral of a positive
integer. -/
def positive_decimal_numeral (par : String) : Prop :=
  par.data ≠ [] ∧ (∀ c ∈ par.data, c.isDigit = true) ∧ 0 < digits_value par.data

/-! ### tcp.h: the segment set -/

/-- The call `segments.insert(x)` of `std::set<tcp_segment>`, on the elements of the set in
their order: the comparison is `tcp_segment::operator<`, and an element that is equivalent
to one the set holds (neither is less than the other) is not inserted. -/
def set_insert : List tcp_segment → tcp_segment → List tcp_segment
  | [], x => [x]
  | y :: ys, x =>
    if x.lt y then x :: y :: ys
    else if y.lt x then y :: set_insert ys x
    else y :: ys

/-- The set that a sequence of calls of `insert` builds from the empty set. -/
def set_of_inserts (xs : List tcp_segment) : List tcp_segment :=
  xs.foldl set_insert []

/-! ### sender.h: `start`, `stop` and `join` -/

/-- The method `sender::start()`; `t` is the thread object that `new std::thread` makes. -/
def sender.start (s : sender) (t : Nat) : sender :=
  { s with thr := some t }

/-- The method `sender::stop()`: the flag is cleared; taking the lock and notifying the
condition variable change no member. -/
def sender.stop (s : sender) : sender :=
  { s with running := false }

/-- The method `sender::join()`, as far as the members of the sender go: without a thread
nothing is done, and with one the caller waits for it, which writes no member. -/
def sender.join (s : sender) : sender :=
  match s.thr with
  | some _ => s
  | none => s

/-- The calls of the methods of `sender` whose bodies are in `sender.h`. -/
inductive sender_call
  | start (t : Nat)
  | stop
  | join
  deriving DecidableEq, Repr

/-- One call on a sender. -/
def sender.call (s : sender) : sender_call → sender
  | .start t => s.start t
  | .stop => s.stop
  | .join => s.join

/-- A sequence of calls on a sender, the first one first. -/
def sender.calls (s : sender) (cs : List sender_call) : sender :=
  cs.foldl sender.call s

/-! ### The context classes: context.h, tcp.h, ip.h, http.h, smtp_auth_context.h -/

/-- A `context_ptr`: `none` is the null pointer, `some a` points to the object at address
`a`.  A weak reference is written the same way. -/
abbrev context_ptr := Option Nat

/-- Modelled from the spec: the base class `context` of `context.h`, which is not among the
sources: "a `flow_address` identifying the flow at this layer, a parent back-reference
(non-owning), an owning map of children keyed by `flow_address`, a monotonic `last_used`
timestamp and a `watermark` flag". -/
structure context where
  addr : flow_address
  parent : context_ptr
  children : List (flow_address × Nat)
  last_used : Nat
  watermark : Bool
  deriving DecidableEq, Repr

/-- Modelled from the spec: the constructor `context(m)` of `context.h`: a node that has no
parent and no children yet.  The members that the spec says nothing about are taken from
`raw`. -/
def context.construct (raw : context) : context :=
  { raw with parent := none, children := [] }

/-- Values that the sources at hand leave open: the members of a `context` as `context(m)`
leaves them, the members of an `http_parser` before the body of its constructor runs, and a
default-constructed `serial` (`serial.h` is not among the sources). -/
structure unspecified where
  base : context
  parser : http_parser_t
  serial : Nat
  deriving DecidableEq, Repr

/-- The static methods `tcp_ports::is_handlers_init` and `tcp_ports::init_handlers`
(`tcp_ports.h` is not among the sources), as functions on a state `H` of the handler
table. -/
structure tcp_ports_t (H : Type) where
  is_handlers_init : H → Bool
  init_handlers : H → H

/-- The data members of `tcp_context`; `processor` is `none` for a null function
pointer. -/
structure tcp_context extends context where
  syn_observed : Bool
  fin_observed : Bool
  connected : Bool
  ident_buffer : String
  svc_idented : Bool
  processor : Option Nat
  seq_expected : Nat
  ack_received : Nat
  segments : List tcp_segment
  deriving DecidableEq, Repr

/-- The constructor `tcp_context::tcp_context(m, a, p)`, with the state of the handler
table before and after. -/
def tcp_context.construct {H : Type} (api : tcp_ports_t H) (u : unspecified) (hs : H)
    (a : flow_address) (p : context_ptr) : tcp_context × H :=
  let c : tcp_context :=
    { tocontext := { context.construct u.base with addr := a, parent := p },
      ident_buffer := "",
      seq_expected := u.serial,
      ack_received := u.serial,
      segments := [],
      syn_observed := false,
      connected := false,
      svc_idented := false,
      processor := none,
      fin_observed := false }
  -- Only need to initialise handlers once
  if !api.is_handlers_init hs then (c, api.init_handlers hs) else (c, hs)

/-- The class `fragment_hole` of `ip.h`. -/
structure fragment_hole where
  first : Nat
  last : Nat
  deriving DecidableEq, Repr

/-- The class `fragment` of `ip.h`. -/
structure fragment where
  first : Nat
  last : Nat
  id : Nat
  frag : List Nat
  deriving DecidableEq, Repr

/-- The data members of `ip4_context`; a fragment pointer is an index into `frags`. -/
structure ip4_context extends context where
  h_list : List (Nat × List fragment_hole)
  f_list : List (Nat × List Nat)
  hdrs_list : List (Nat × pdu)
  frags : List fragment
  deriving DecidableEq, Repr

/-- The constructor `ip4_context::ip4_context(m, a, par)`. -/
def ip4_context.construct (u : unspecified) (a : flow_address) (par : context_ptr) :
    ip4_context :=
  { tocontext := { context.construct u.base with parent := par, addr := a },
    h_list := [], f_list := [], hdrs_list := [], frags := [] }

/-- The data members of `ip6_context`. -/
structure ip6_context extends context where
  deriving DecidableEq, Repr

/-- The constructor `ip6_context::ip6_context(m, a, par)`. -/
def ip6_context.construct (u : unspecified) (a : flow_address) (par : context_ptr) :
    ip6_context :=
  { tocontext := { context.construct u.base with parent := par, addr := a } }

/-- The data members of `smtp_auth_context`. -/
structure smtp_auth_context extends context where
  deriving DecidableEq, Repr

/-- The constructor `smtp_auth_context::smtp_auth_context(m, a, p)`. -/
def smtp_auth_context.construct (u : unspecified) (a : flow_address) (p : context_ptr) :
    smtp_auth_context :=
  { tocontext := { context.construct u.base with addr := a, parent := p } }

/-- The constructor `http_parser::http_parser(var)`; `raw` holds the members as they are
before the body runs. -/
def http_parser_t.construct (raw : http_parser_t) (var : variant_t) : http_parser_t :=
  let hp : http_parser_t := { raw with variant := var }
  let hp := hp.reset_transaction
  if var = variant_t.REQUEST then { hp with state := state_t.IN_REQUEST_METHOD }
  else { hp with state := state_t.IN_RESPONSE_PROTOCOL }

/-- The data members of `http_request_context`, which derives from `context` and from
`http_parser`. -/
structure http_request_context extends context, http_parser_t where
  urls_requested : List String
  streaming_requested : Bool
  streaming : Bool
  deriving DecidableEq, Repr

/-- The constructor `http_request_context::http_request_context(m)`. -/
def http_request_context.construct (u : unspecified) : http_request_context :=
  { tocontext := context.construct u.base,
    tohttp_parser_t := http_parser_t.construct u.parser variant_t.REQUEST,
    urls_requested := [],
    streaming_requested := false,
    streaming := false }

/-- The constructor `http_request_context::http_request_context(m, a, p)`. -/
def http_request_context.construct_at (u : unspecified) (a : flow_address)
    (p : context_ptr) : http_request_context :=
  { tocontext := { context.construct u.base with addr := a, parent := p },
    tohttp_parser_t := http_parser_t.construct u.parser variant_t.REQUEST,
    urls_requested := [],
    streaming_requested := false,
    streaming := false }

/-- The data members of `http_response_context`, which derives from `context` and from
`http_parser`. -/
structure http_response_context extends context, http_parser_t where
  streaming : Bool
  deriving DecidableEq, Repr

/-- The constructor `http_response_context::http_response_context(m)`. -/
def http_response_context.construct (u : unspecified) : http_response_context :=
  { tocontext := context.construct u.base,
    tohttp_parser_t := http_parser_t.construct u.parser variant_t.RESPONSE,
    streaming := false }

/-- The constructor `http_response_context::http_response_context(m, a, p)`. -/
def http_response_context.construct_at (u : unspecified) (a : flow_address)
    (p : context_ptr) : http_response_context :=
  { tocontext := { context.construct u.base with addr := a, parent := p },
    tohttp_parser_t := http_parser_t.construct u.parser variant_t.RESPONSE,
    streaming := false }

/-! ### The objects behind the context pointers, and `get_or_create` -/

/-- A context object with its dynamic type: one of the six classes of the sources at
hand, or another class derived from `context`. -/
inductive context_obj
  | tcp (c : tcp_context)
  | ip4 (c : ip4_context)
  | ip6 (c : ip6_context)
  | http_request (c : http_request_context)
  | http_response (c : http_response_context)
  | smtp_auth (c : smtp_auth_context)
  | other (c : context)
  deriving DecidableEq, Repr

/-- The six classes whose `get_or_create` is in the sources at hand. -/
inductive subtype_t
  | tcp | ip4 | ip6 | http_request | http_response | smtp_auth
  deriving DecidableEq, Repr

/-- The dynamic type of an object, when it is one of the six classes. -/
def context_obj.subtype : context_obj → Option subtype_t
  | .tcp _ => some .tcp
  | .ip4 _ => some .ip4
  | .ip6 _ => some .ip6
  | .http_request _ => some .http_request
  | .http_response _ => some .http_response
  | .smtp_auth _ => some .smtp_auth
  | .other _ => none

/-- The `context` part of an object. -/
def context_obj.base : context_obj → context
  | .tcp c => c.tocontext
  | .ip4 c => c.tocontext
  | .ip6 c => c.tocontext
  | .http_request c => c.tocontext
  | .http_response c => c.tocontext
  | .smtp_auth c => c.tocontext
  | .other c => c

/-- An assignment to the member `children` of an object. -/
def context_obj.set_children (o : context_obj) (ch : List (flow_address × Nat)) :
    context_obj :=
  match o with
  | .tcp c => .tcp { c with children := ch }
  | .ip4 c => .ip4 { c with children := ch }
  | .ip6 c => .ip6 { c with children := ch }
  | .http_request c => .http_request { c with children := ch }
  | .http_response c => .http_response { c with children := ch }
  | .smtp_auth c => .smtp_auth { c with children := ch }
  | .other c => .other { c with children := ch }

/-- The memory that the context pointers point into: the live objects by address, and the
state of the handler table of `tcp_ports`. -/
structure store (H : Type) where
  objs : List (Nat × context_obj)
  tcp_ports : H
  deriving DecidableEq, Repr

/-- An address at which no object lives: the one after the largest address in use. -/
def fresh_address (objs : List (Nat × context_obj)) : Nat :=
  (objs.map Prod.fst).foldr max 0 + 1

/-- The expression `context_ptr(new X(...))`: the object is placed at an unused address,
and the pointer to it, which is not null, is returned as that address. -/
def store.alloc {H : Type} (s : store H) (o : context_obj) : store H × Nat :=
  ({ s with objs := map_insert s.objs (fresh_address s.objs) o }, fresh_address s.objs)

/-- The type `creator` of the functions `create(m, f, par)`. -/
abbrev creator (H : Type) := store H → flow_address → context_ptr → store H × Nat

/-- The static method `tcp_context::create(m, f, par)`. -/
def tcp_context.create {H : Type} (api : tcp_ports_t H) (u : unspecified) : creator H :=
  fun s f par =>
    let (tc, hs) := tcp_context.construct api u s.tcp_ports f par
    store.alloc { s with tcp_ports := hs } (.tcp tc)

/-- The static method `ip4_context::create(m, f, par)`. -/
def ip4_context.create {H : Type} (u : unspecified) : creator H :=
  fun s f par => s.alloc (.ip4 (ip4_context.construct u f par))

/-- The static method `ip6_context::create(m, f, par)`. -/
def ip6_context.create {H : Type} (u : unspecified) : creator H :=
  fun s f par => s.alloc (.ip6 (ip6_context.construct u f par))

/-- The static method `http_request_context::create(m, f, par)`. -/
def http_request_context.create {H : Type} (u : unspecified) : creator H :=
  fun s f par => s.alloc (.http_request (http_request_context.construct_at u f par))

/-- The static method `http_response_context::create(m, f, par)`. -/
def http_response_context.create {H : Type} (u : unspecified) : creator H :=
  fun s f par => s.alloc (.http_response (http_response_context.construct_at u f par))

/-- The static method `smtp_auth_context::create(m, f, par)`. -/
def smtp_auth_context.create {H : Type} (u : unspecified) : creator H :=
  fun s f par => s.alloc (.smtp_auth (smtp_auth_context.construct u f par))

/-- Modelled from the spec: the static method `context::get_or_create(base, f, create_fn)`
of `context.h`, which is not among the sources: "get-or-create under the parent", whose
children are "keyed by `flow_address`": the child that `base` holds under `f` is returned,
and when there is none a child is made by `create_fn` and stored under `f`.  The result is
`none` when `base` is null or points to no object, where the call has no defined
behaviour. -/
def context.get_or_create {H : Type} (s : store H) (base : context_ptr)
    (f : flow_address) (create_fn : creator H) : Option (store H × context_ptr) :=
  match base with
  | none => none
  | some b =>
    match map_find s.objs b with
    | none => none
    | some bo =>
      match map_find bo.base.children f with
      | some ch => some (s, some ch)
      | none =>
        let (s1, ch) := create_fn s f base
        some ({ s1 with
                objs := map_update s1.objs b
                          (fun o => o.set_children (map_insert o.base.children f ch)) },
              some ch)

/-- The cast `std::dynamic_pointer_cast<X>(cp)`: the pointer itself when it points to an
object of the class `X`, and a null pointer otherwise. -/
def dynamic_pointer_cast {H : Type} (s : store H) (X : subtype_t) (cp : context_ptr) :
    context_ptr :=
  match cp with
  | none => none
  | some a =>
    match map_find s.objs a with
    | none => none
    | some o => if o.subtype = some X then some a else none

/-- The static method `tcp_context::get_or_create(base, f)`. -/
def tcp_context.get_or_create {H : Type} (api : tcp_ports_t H) (u : unspecified)
    (s : store H) (base : context_ptr) (f : flow_address) : Option (store H × context_ptr) :=
  match context.get_or_create s base f (tcp_context.create api u) with
  | none => none
  | some (s1, cp) => some (s1, dynamic_pointer_cast s1 .tcp cp)

/-- The static method `ip4_context::get_or_create(base, f)`. -/
def ip4_context.get_or_create {H : Type} (u : unspecified)
    (s : store H) (base : context_ptr) (f : flow_address) : Option (store H × context_ptr) :=
  match context.get_or_create s base f (ip4_context.create u) with
  | none => none
  | some (s1, cp) => some (s1, dynamic_pointer_cast s1 .ip4 cp)

/-- The static method `ip6_context::get_or_create(base, f)`. -/
def ip6_context.get_or_create {H : Type} (u : unspecified)
    (s : store H) (base : context_ptr) (f : flow_address) : Option (store H × context_ptr) :=
  match context.get_or_create s base f (ip6_context.create u) with
  | none => none
  | some (s1, cp) => some (s1, dynamic_pointer_cast s1 .ip6 cp)

/-- The static method `http_request_context::get_or_create(base, f)`. -/
def http_request_context.get_or_create {H : Type} (u : unspecified)
    (s : store H) (base : context_ptr) (f : flow_address) : Option (store H × context_ptr) :=
  match context.get_or_create s base f (http_request_context.create u) with
  | none => none
  | some (s1, cp) => some (s1, dynamic_pointer_cast s1 .http_request cp)

/-- The static method `http_response_context::get_or_create(base, f)`. -/
def http_response_context.get_or_create {H : Type} (u : unspecified)
    (s : store H) (base : context_ptr) (f : flow_address) : Option (store H × context_ptr) :=
  match context.get_or_create s base f (http_response_context.create u) with
  | none => none
  | some (s1, cp) => some (s1, dynamic_pointer_cast s1 .http_response cp)

/-- The static method `smtp_auth_context::get_or_create(base, f)`. -/
def smtp_auth_context.get_or_create {H : Type} (u : unspecified)
    (s : store H) (base : context_ptr) (f : flow_address) : Option (store H × context_ptr) :=
  match context.get_or_create s base f (smtp_auth_context.create u) with
  | none => none
  | some (s1, cp) => some (s1, dynamic_pointer_cast s1 .smtp_auth cp)

/-- The object that the constructor of the class `X` makes for `create(m, f, par)`. -/
def constructed {H : Type} (api : tcp_ports_t H) (u : unspecified) (s : store H)
    (X : subtype_t) (f : flow_address) (par : context_ptr) : context_obj :=
  match X with
  | .tcp => .tcp (tcp_context.construct api u s.tcp_ports f par).1
  | .ip4 => .ip4 (ip4_context.construct u f par)
  | .ip6 => .ip6 (ip6_context.construct u f par)
  | .http_request => .http_request (http_request_context.construct_at u f par)
  | .http_response => .http_response (http_response_context.construct_at u f par)
  | .smtp_auth => .smtp_auth (smtp_auth_context.construct u f par)

/-- The method `create` of the class `X`. -/
def create_of {H : Type} (api : tcp_ports_t H) (u : unspecified) : subtype_t → creator H
  | .tcp => tcp_context.create api u
  | .ip4 => ip4_context.create u
  | .ip6 => ip6_context.create u
  | .http_request => http_request_context.create u
  | .http_response => http_response_context.create u
  | .smtp_auth => smtp_auth_context.create u

/-- The method `get_or_create` of the class `X`. -/
def get_or_create_of {H : Type} (api : tcp_ports_t H) (u : unspecified) :
    subtype_t → store H → context_ptr → flow_address → Option (store H × context_ptr)
  | .tcp => tcp_context.get_or_create api u
  | .ip4 => ip4_context.get_or_create u
  | .ip6 => ip6_context.get_or_create u
  | .http_request => http_request_context.get_or_create u
  | .http_response => http_response_context.get_or_create u
  | .smtp_auth => smtp_auth_context.get_or_create u

/-- The children of every object are stored under their own flow address and refer back
to the object: whenever an object at `a` holds the pointer `ch` under `f`, an object lives
at `ch`, its flow address is `f` and its parent is `a`. -/
def store.children_keyed {H : Type} (s : store H) : Prop :=
  ∀ (a : Nat) (o : context_obj) (f : flow_address) (ch : Nat),
    map_find s.objs a = some o → map_find o.base.children f = some ch →
    ∃ c, map_find s.objs ch = some c ∧ c.base.addr = f ∧ c.base.parent = some a

/-! ### Values for the examples -/

/-- A flow address for the examples: from 10.0.0.1 to 10.0.0.2. -/
def example_flow : flow_address :=
  ⟨⟨layer_tag.IP4, [10, 0, 0, 1]⟩, ⟨layer_tag.IP4, [10, 0, 0, 2]⟩⟩

/-- Open values for the examples. -/
def example_unspecified : unspecified :=
  { base := { addr := ⟨⟨layer_tag.LINK, []⟩, ⟨layer_tag.LINK, []⟩⟩, parent := none,
              children := [], last_used := 0, watermark := false },
    parser := { variant := variant_t.RESPONSE, state := state_t.STREAMING, protocol := "x",
                method := "x", url := "x", code := "x", codeval := 7, status := "x",
                header := [("k", ("K", "v"))], key := "", value := "", chunk_length := "",
                content_remaining := 9, body := [1] },
    serial := 0 }

/-- A handler table for the examples: its state is the flag "initialised". -/
def example_api : tcp_ports_t Bool :=
  { is_handlers_init := fun b => b, init_handlers := fun _ => true }

/-- A store for the examples: one object, of another class than the six, at address 1,
without children. -/
def example_store : store Bool :=
  { objs := [(1, context_obj.other example_unspecified.base)], tcp_ports := false }

/-! ## Theorems -/

/-! ### `normalise_url` -/

theorem class_azAZ_eq_isAlpha (c : Char) : class_azAZ c = c.isAlpha := by
  have h1 : ∀ a b : Char, decide (a ≤ b) = decide (a.val ≤ b.val) := fun _ _ => rfl
  have ha : ('a' : Char).val = 97 := rfl
  have hz : ('z' : Char).val = 122 := rfl
  have hA : ('A' : Char).val = 65 := rfl
  have hZ : ('Z' : Char).val = 90 := rfl
  unfold class_azAZ Char.isAlpha Char.isUpper Char.isLower
  rw [h1, h1, h1, h1, ha, hz, hA, hZ, Bool.or_comm]

theorem regex_plus_iff (p : Char → Bool) (k : List Char → Bool) (l : List Char) :
    regex_plus p k l = true ↔
      ∃ xs rest, xs ≠ [] ∧ (∀ c ∈ xs, p c = true) ∧ l = xs ++ rest ∧ k rest = true := by
  induction l with
  | nil =>
    simp only [regex_plus, Bool.false_eq_true, false_iff]
    rintro ⟨xs, rest, hne, -, hl, -⟩
    cases xs with
    | nil => exact hne rfl
    | cons x xs => simp at hl
  | cons c cs ih =>
    simp only [regex_plus, Bool.and_eq_true, Bool.or_eq_true, ih]
    constructor
    · rintro ⟨hc, h | h⟩
      · obtain ⟨xs, rest, -, hall, hl, hk⟩ := h
        refine ⟨c :: xs, rest, by simp, ?_, by simp [hl], hk⟩
        intro d hd
        rcases List.mem_cons.mp hd with rfl | hd
        · exact hc
        · exact hall d hd
      · exact ⟨[c], cs, by simp, by simpa using hc, by simp, h⟩
    · rintro ⟨xs, rest, hne, hall, hl, hk⟩
      cases xs with
      | nil => exact absurd rfl hne
      | cons x xs =>
        simp only [List.cons_append, List.cons.injEq] at hl
        obtain ⟨rfl, rfl⟩ := hl
        refine ⟨hall _ (List.mem_cons_self _ _), ?_⟩
        cases xs with
        | nil => right; simpa using hk
        | cons y ys =>
          left
          exact ⟨y :: ys, rest, by simp, fun d hd => hall d (List.mem_cons_of_mem _ hd), rfl, hk⟩

theorem regex_char_accept_iff (x : Char) (l : List Char) :
    regex_char x regex_accept l = true ↔ ∃ rest, l = x :: rest := by
  cases l with
  | nil => simp [regex_char]
  | cons c cs => simp [regex_char, regex_accept]

theorem already_normalised_iff (url : String) :
    already_normalised url = true ↔ begins_with_scheme url := by
  unfold already_normalised begins_with_scheme
  rw [regex_plus_iff]
  constructor
  · rintro ⟨xs, rest, hne, hall, hl, hk⟩
    obtain ⟨r, rfl⟩ := (regex_char_accept_iff _ _).mp hk
    exact ⟨xs, r, hne, fun c hc => by rw [← class_azAZ_eq_isAlpha]; exact hall c hc, hl⟩
  · rintro ⟨xs, r, hne, hall, hl⟩
    exact ⟨xs, ':' :: r, hne, fun c hc => by rw [class_azAZ_eq_isAlpha]; exact hall c hc, hl,
      (regex_char_accept_iff _ _).mpr ⟨r, rfl⟩⟩

/-- C1: `normalise_url` returns the target unchanged when it begins with one or more ASCII
letters immediately followed by a colon, and otherwise returns `"http://" ++ host ++ url`;
host `example.com` with target `/path` gives `http://example.com/path`, and the target
`http://x/y` is returned as it is. -/
theorem normalise_url_spec (host url : String) :
    (begins_with_scheme url → normalise_url host url = url) ∧
    (¬ begins_with_scheme url → normalise_url host url = "http://" ++ host ++ url) ∧
    normalise_url "example.com" "/path" = "http://example.com/path" ∧
    normalise_url host "http://x/y" = "http://x/y" := by
  refine ⟨?_, ?_, by decide, ?_⟩
  · intro h
    simp [normalise_url, (already_normalised_iff url).mpr h]
  · intro h
    have : already_normalised url = false := by
      rw [← Bool.not_eq_true, already_normalised_iff]; exact h
    simp [normalise_url, this]
  · have : already_normalised "http://x/y" = true := by decide
    simp [normalise_url, this]

/-- Witness for C1 at the targets `ftp:x` (kept) and `/p` (prefixed). -/
theorem normalise_url_spec_witness :
    begins_with_scheme "ftp:x" ∧ normalise_url "h" "ftp:x" = "ftp:x" ∧
    ¬ begins_with_scheme "/p" ∧ normalise_url "h" "/p" = "http://" ++ "h" ++ "/p" :=
  have h1 : begins_with_scheme "ftp:x" := (already_normalised_iff "ftp:x").mp (by decide)
  have h2 : ¬ begins_with_scheme "/p" := fun h =>
    absurd ((already_normalised_iff "/p").mpr h) (by decide)
  ⟨h1, (normalise_url_spec "h" "ftp:x").1 h1, h2, (normalise_url_spec "h" "/p").2.1 h2⟩

/-! ### The association lists -/

section map_lemmas

variable {K V : Type} [DecidableEq K]

theorem map_find_insert_self (m : List (K × V)) (k : K) (v : V) :
    map_find (map_insert m k v) k = some v := by
  induction m with
  | nil => simp [map_insert, map_find]
  | cons kv m ih =>
    obtain ⟨k1, v1⟩ := kv
    by_cases hk : k1 = k
    · simp [map_insert, map_find, hk]
    · simp [map_insert, map_find, hk, ih]

theorem map_find_insert_ne (m : List (K × V)) (k k2 : K) (v : V) (hne : k2 ≠ k) :
    map_find (map_insert m k v) k2 = map_find m k2 := by
  induction m with
  | nil => simp [map_insert, map_find, Ne.symm hne]
  | cons kv m ih =>
    obtain ⟨k1, v1⟩ := kv
    by_cases hk : k1 = k
    · subst hk
      simp [map_insert, map_find, Ne.symm hne]
    · by_cases hk2 : k1 = k2
      · subst hk2
        simp [map_insert, map_find, hne]
      · simp [map_insert, map_find, hk, hk2, ih]

theorem map_find_erase_self (m : List (K × V)) (k : K) :
    map_find (map_erase m k) k = none := by
  induction m with
  | nil => simp [map_erase, map_find]
  | cons kv m ih =>
    obtain ⟨k1, v1⟩ := kv
    by_cases hk : k1 = k
    · simp [map_erase, hk, ih]
    · simp [map_erase, map_find, hk, ih]

theorem map_find_erase_ne (m : List (K × V)) (k k2 : K) (hne : k2 ≠ k) :
    map_find (map_erase m k) k2 = map_find m k2 := by
  induction m with
  | nil => simp [map_erase, map_find]
  | cons kv m ih =>
    obtain ⟨k1, v1⟩ := kv
    by_cases hk : k1 = k
    · subst hk
      simp [map_erase, map_find, Ne.symm hne, ih]
    · by_cases hk2 : k1 = k2
      · subst hk2
        simp [map_erase, map_find, hne]
      · simp [map_erase, map_find, hk, hk2, ih]

theorem map_erase_of_find_none (m : List (K × V)) (k : K) (h : map_find m k = none) :
    map_erase m k = m := by
  induction m with
  | nil => simp [map_erase]
  | cons kv m ih =>
    obtain ⟨k1, v1⟩ := kv
    by_cases hk : k1 = k
    · simp [map_find, hk] at h
    · simp only [map_find, hk, if_false] at h
      simp [map_erase, hk, ih h]

theorem map_erase_erase (m : List (K × V)) (k : K) :
    map_erase (map_erase m k) k = map_erase m k :=
  map_erase_of_find_none _ _ (map_find_erase_self m k)

theorem map_find_update_self (m : List (K × V)) (k : K) (f : V → V) :
    map_find (map_update m k f) k = (map_find m k).map f := by
  induction m with
  | nil => simp [map_update, map_find]
  | cons kv m ih =>
    obtain ⟨k1, v1⟩ := kv
    by_cases hk : k1 = k
    · simp [map_update, map_find, hk]
    · simp [map_update, map_find, hk, ih]

theorem map_find_update_ne (m : List (K × V)) (k k2 : K) (f : V → V) (hne : k2 ≠ k) :
    map_find (map_update m k f) k2 = map_find m k2 := by
  induction m with
  | nil => simp [map_update, map_find]
  | cons kv m ih =>
    obtain ⟨k1, v1⟩ := kv
    by_cases hk : k1 = k
    · subst hk
      simp [map_update, map_find, Ne.symm hne]
    · by_cases hk2 : k1 = k2
      · subst hk2
        simp [map_update, map_find, hne]
      · simp [map_update, map_find, hk, hk2, ih]

theorem map_update_update (m : List (K × V)) (k : K) (f : V → V)
    (hf : ∀ v, f (f v) = f v) :
    map_update (map_update m k f) k f = map_update m k f := by
  induction m with
  | nil => simp [map_update]
  | cons kv m ih =>
    obtain ⟨k1, v1⟩ := kv
    by_cases hk : k1 = k
    · simp [map_update, hk, hf]
    · simp [map_update, hk, ih]

end map_lemmas

/-! ### `engine::target_up` and `engine::target_down` -/

/-- The registry in which `target_up` writes the trigger address: the one left by
`get_root_context`. -/
theorem target_up_contexts (e : engine) (d n : String) (a : address) (t : timeval) :
    (e.target_up d n a t).contexts =
      map_update
        (match map_find e.contexts (d, n) with
          | some _ => e.contexts
          | none => map_insert e.contexts (d, n) (root_context.create d n))
        (d, n) (fun rc => rc.set_trigger_address a) := by
  unfold engine.target_up engine.get_root_context engine.handle
  cases h : map_find e.contexts (d, n) <;> rfl

theorem target_up_handled (e : engine) (d n : String) (a : address) (t : timeval) :
    (e.target_up d n a t).handled = e.handled ++ [event.trigger_up d a t] := by
  unfold engine.target_up engine.get_root_context engine.handle
  cases h : map_find e.contexts (d, n) <;> rfl

theorem target_up_find_self (e : engine) (d n : String) (a : address) (t : timeval) :
    map_find (e.target_up d n a t).contexts (d, n) =
      some (((map_find e.contexts (d, n)).getD (root_context.create d n)).set_trigger_address
        a) := by
  rw [target_up_contexts, map_find_update_self]
  cases h : map_find e.contexts (d, n) with
  | none => simp [map_find_insert_self]
  | some rc => simp [h]

theorem target_up_find_ne (e : engine) (d n : String) (a : address) (t : timeval)
    (id : root_id) (hne : id ≠ (d, n)) :
    map_find (e.target_up d n a t).contexts id = map_find e.contexts id := by
  rw [target_up_contexts, map_find_update_ne _ _ _ _ hne]
  cases h : map_find e.contexts (d, n) with
  | none => simp [map_find_insert_ne _ _ _ _ hne]
  | some rc => simp

theorem target_down_contexts (e : engine) (d n : String) (t : timeval) :
    (e.target_down d n t).contexts = map_erase e.contexts (d, n) := rfl

theorem target_down_handled (e : engine) (d n : String) (t : timeval) :
    (e.target_down d n t).handled = e.handled ++ [event.trigger_down d t] := rfl

/-- C2, as the code has it: for a device and network without a root in the registry,
`target_down` leaves the registry unchanged and hands exactly one event to the sink, the
`TRIGGER_DOWN` event of the device and time. -/
theorem target_down_unknown (e : engine) (d n : String) (t : timeval)
    (h : map_find e.contexts (d, n) = none) :
    (e.target_down d n t).contexts = e.contexts ∧
    (e.target_down d n t).handled = e.handled ++ [event.trigger_down d t] ∧
    (event.trigger_down d t).action = action_type.TRIGGER_DOWN := by
  refine ⟨?_, rfl, rfl⟩
  rw [target_down_contexts]
  exact map_erase_of_find_none _ _ h

/-- Witness for `target_down_unknown`: an engine that knows `(d1, n1)` only, and a
notification for `(d2, n1)`. -/
theorem target_down_unknown_witness :
    map_find
      (engine.mk [(("d1", "n1"), root_context.create "d1" "n1")] []).contexts ("d2", "n1")
      = none ∧
    ((engine.mk [(("d1", "n1"), root_context.create "d1" "n1")] []).target_down
        "d2" "n1" ⟨5, 0⟩).contexts
      = [(("d1", "n1"), root_context.create "d1" "n1")] ∧
    ((engine.mk [(("d1", "n1"), root_context.create "d1" "n1")] []).target_down
        "d2" "n1" ⟨5, 0⟩).handled
      = [] ++ [event.trigger_down "d2" ⟨5, 0⟩] ∧
    (event.trigger_down "d2" ⟨5, 0⟩).action = action_type.TRIGGER_DOWN :=
  ⟨by decide,
    target_down_unknown (engine.mk [(("d1", "n1"), root_context.create "d1" "n1")] [])
      "d2" "n1" ⟨5, 0⟩ (by decide)⟩

/-- C2 as stated fails: on the engine without any root, `target_down` for `(d1, n1)` hands
a `TRIGGER_DOWN` event to the sink, so the call is not without effect. -/
theorem target_down_unknown_not_noop :
    map_find (engine.mk [] []).contexts ("d1", "n1") = none ∧
    ((engine.mk [] []).target_down "d1" "n1" ⟨5, 0⟩).handled
      = [event.trigger_down "d1" ⟨5, 0⟩] ∧
    ((engine.mk [] []).target_down "d1" "n1" ⟨5, 0⟩).handled ≠ (engine.mk [] []).handled ∧
    ¬ (∀ (e : engine) (d n : String) (t : timeval), map_find e.contexts (d, n) = none →
        (e.target_down d n t).contexts = e.contexts ∧
        (e.target_down d n t).handled = e.handled) := by
  refine ⟨by decide, by decide, by decide, ?_⟩
  intro hall
  have h := (hall (engine.mk [] []) "d1" "n1" ⟨5, 0⟩ (by decide)).2
  revert h
  decide

/-- C3: `target_up` and `target_down` are idempotent on the registry: a second `target_up`
with the same arguments leaves the registry of the first, which holds a root for the device
and network whose trigger address is the given one, and a second `target_down` leaves the
registry of the first, which holds no root for the device and network. -/
theorem target_up_down_idempotent (e : engine) (d n : String) (a : address)
    (t : timeval) :
    ((e.target_up d n a t).target_up d n a t).contexts = (e.target_up d n a t).contexts ∧
    (∃ rc, map_find (e.target_up d n a t).contexts (d, n) = some rc ∧
      rc.trigger_address = some a) ∧
    ((e.target_down d n t).target_down d n t).contexts = (e.target_down d n t).contexts ∧
    map_find (e.target_down d n t).contexts (d, n) = none := by
  refine ⟨?_, ⟨_, target_up_find_self e d n a t, rfl⟩, ?_, ?_⟩
  · rw [target_up_contexts (e.target_up d n a t), target_up_find_self]
    simp only
    rw [target_up_contexts]
    exact map_update_update _ _ _ (fun _ => rfl)
  · rw [target_down_contexts, target_down_contexts, map_erase_erase]
  · rw [target_down_contexts]
    exact map_find_erase_self _ _

/-- C4: `target_up` locates the root of the device and network, or creates it, and sets its
trigger address to the given address; it hands exactly one event to the sink, a
`TRIGGER_UP` event with the device, the address and the time; the root of every other
device and network is as before. -/
theorem target_up_spec (e : engine) (d n : String) (a : address) (t : timeval) :
    (∃ rc, map_find (e.target_up d n a t).contexts (d, n) = some rc ∧
      rc.trigger_address = some a ∧
      rc = ((map_find e.contexts (d, n)).getD
              (root_context.create d n)).set_trigger_address a) ∧
    (e.target_up d n a t).handled = e.handled ++ [event.trigger_up d a t] ∧
    (event.trigger_up d a t).action = action_type.TRIGGER_UP ∧
    (∀ id : root_id, id ≠ (d, n) →
      map_find (e.target_up d n a t).contexts id = map_find e.contexts id) :=
  ⟨⟨_, target_up_find_self e d n a t, rfl, rfl⟩, target_up_handled e d n a t, rfl,
    fun id hne => target_up_find_ne e d n a t id hne⟩

/-- Witness for `target_up_spec`: an engine with a root for `(d2, n2)` that has a trigger
address and a child, and a notification for `(d1, n1)`; the root of `(d2, n2)` is kept. -/
theorem target_up_spec_witness :
    (("d2", "n2") : root_id) ≠ ("d1", "n1") ∧
    map_find
      ((engine.mk
        [(("d2", "n2"),
          { device := "d2", network := "n2",
            trigger_address := some ⟨layer_tag.IP4, [10, 0, 0, 2]⟩,
            children := [⟨⟨layer_tag.IP4, [1]⟩, ⟨layer_tag.IP4, [2]⟩⟩] })] []).target_up
        "d1" "n1" ⟨layer_tag.IP4, [10, 0, 0, 1]⟩ ⟨7, 0⟩).contexts ("d2", "n2")
      = map_find
        (engine.mk
          [(("d2", "n2"),
            { device := "d2", network := "n2",
              trigger_address := some ⟨layer_tag.IP4, [10, 0, 0, 2]⟩,
              children := [⟨⟨layer_tag.IP4, [1]⟩, ⟨layer_tag.IP4, [2]⟩⟩] })] []).contexts
        ("d2", "n2") :=
  ⟨by decide,
    (target_up_spec
      (engine.mk
        [(("d2", "n2"),
          { device := "d2", network := "n2",
            trigger_address := some ⟨layer_tag.IP4, [10, 0, 0, 2]⟩,
            children := [⟨⟨layer_tag.IP4, [1]⟩, ⟨layer_tag.IP4, [2]⟩⟩] })] [])
      "d1" "n1" ⟨layer_tag.IP4, [10, 0, 0, 1]⟩ ⟨7, 0⟩).2.2.2 ("d2", "n2") (by decide)⟩

/-- After `target_down`, the lookup of the root by `get_root_context` creates a new one. -/
theorem get_root_context_after_target_down (e : engine) (d n : String) (t : timeval) :
    (e.target_down d n t).get_root_context d n =
      ({ e.target_down d n t with
          contexts := map_insert (e.target_down d n t).contexts (d, n)
                        (root_context.create d n) }, (d, n)) := by
  have h : map_find (e.target_down d n t).contexts (d, n) = none := by
    rw [target_down_contexts]
    exact map_find_erase_self _ _
  unfold engine.get_root_context
  rw [h]

/-- C5: when a root exists for the device and network, `target_down` first removes it from
the registry, leaving the roots of the other pairs alone, and then hands exactly one
`TRIGGER_DOWN` event of the device and time to the sink; afterwards the root is absent, and
a following `process` for the pair works on a newly created root without trigger address
and without children; `target_up` followed by `target_down` hands `TRIGGER_UP` and then
`TRIGGER_DOWN` to the sink. -/
theorem target_down_spec (e : engine) (d n : String) (t : timeval) (rc : root_context)
    (h : map_find e.contexts (d, n) = some rc) :
    -- the removal comes first: the event is handed over in the state without the root
    e.target_down d n t = (e.close_root_context d n).handle (event.trigger_down d t) ∧
    map_find (e.close_root_context d n).contexts (d, n) = none ∧
    (e.close_root_context d n).handled = e.handled ∧
    -- the registry after the call
    map_find (e.target_down d n t).contexts (d, n) = none ∧
    (e.target_down d n t).contexts ≠ e.contexts ∧
    (∀ id : root_id, id ≠ (d, n) →
      map_find (e.target_down d n t).contexts id = map_find e.contexts id) ∧
    -- the sink after the call
    (e.target_down d n t).handled = e.handled ++ [event.trigger_down d t] ∧
    (event.trigger_down d t).action = action_type.TRIGGER_DOWN ∧
    -- a following packet
    (∀ (S : Type) (decode : engine → root_id → S → engine) (s : S),
      ∃ e1 : engine,
        (e.target_down d n t).process decode d n s = decode e1 (d, n) s ∧
        map_find e1.contexts (d, n) = some (root_context.create d n) ∧
        (root_context.create d n).trigger_address = none ∧
        (root_context.create d n).children = [] ∧
        e1.handled = (e.target_down d n t).handled) ∧
    -- the two notifications in a row
    (∀ (a : address) (t0 : timeval),
      ((e.target_up d n a t0).target_down d n t).handled =
        e.handled ++ [event.trigger_up d a t0, event.trigger_down d t]) := by
  have hnone : map_find (map_erase e.contexts (d, n)) (d, n) = none :=
    map_find_erase_self _ _
  refine ⟨rfl, hnone, rfl, hnone, ?_, ?_, rfl, rfl, ?_, ?_⟩
  · intro heq
    rw [target_down_contexts] at heq
    rw [heq, h] at hnone
    exact Option.noConfusion hnone
  · intro id hne
    rw [target_down_contexts]
    exact map_find_erase_ne _ _ _ hne
  · intro S decode s
    refine ⟨{ e.target_down d n t with
                contexts := map_insert (e.target_down d n t).contexts (d, n)
                              (root_context.create d n) }, ?_, ?_, rfl, rfl, rfl⟩
    · unfold engine.process
      rw [get_root_context_after_target_down]
    · exact map_find_insert_self _ _ _
  · intro a t0
    rw [target_down_handled, target_up_handled, List.append_assoc]
    rfl

/-- Witness for `target_down_spec`: an engine whose root for `(d1, n1)` has a trigger
address and a child. -/
theorem target_down_spec_witness :
    map_find
      (engine.mk
        [(("d1", "n1"),
          { device := "d1", network := "n1",
            trigger_address := some ⟨layer_tag.IP4, [10, 0, 0, 1]⟩,
            children := [⟨⟨layer_tag.IP4, [1]⟩, ⟨layer_tag.IP4, [2]⟩⟩] })] []).contexts
      ("d1", "n1")
      = some
        { device := "d1", network := "n1",
          trigger_address := some ⟨layer_tag.IP4, [10, 0, 0, 1]⟩,
          children := [⟨⟨layer_tag.IP4, [1]⟩, ⟨layer_tag.IP4, [2]⟩⟩] } ∧
    map_find
      ((engine.mk
        [(("d1", "n1"),
          { device := "d1", network := "n1",
            trigger_address := some ⟨layer_tag.IP4, [10, 0, 0, 1]⟩,
            children := [⟨⟨layer_tag.IP4, [1]⟩, ⟨layer_tag.IP4, [2]⟩⟩] })] []).target_down
        "d1" "n1" ⟨9, 0⟩).contexts ("d1", "n1")
      = none :=
  ⟨by decide,
    (target_down_spec
      (engine.mk
        [(("d1", "n1"),
          { device := "d1", network := "n1",
            trigger_address := some ⟨layer_tag.IP4, [10, 0, 0, 1]⟩,
            children := [⟨⟨layer_tag.IP4, [1]⟩, ⟨layer_tag.IP4, [2]⟩⟩] })] [])
      "d1" "n1" ⟨9, 0⟩
      { device := "d1", network := "n1",
        trigger_address := some ⟨layer_tag.IP4, [10, 0, 0, 1]⟩,
        children := [⟨⟨layer_tag.IP4, [1]⟩, ⟨layer_tag.IP4, [2]⟩⟩] }
      (by decide)).2.2.2.1⟩

/-! ### `engine::get_context_stack` -/

theorem get_context_stack_null {C : Type} (parent_lock : C → Option C) (fuel : Nat)
    (l : List C) : get_context_stack parent_lock fuel none l = some l := by
  cases fuel <;> rfl

theorem get_context_stack_chain {C : Type} (parent_lock : C → Option C) (top : C)
    (htop : parent_lock top = none) :
    ∀ (d : Nat) (p : C) (l : List C) (fuel : Nat),
      ancestor parent_lock d p = some top → d + 1 ≤ fuel →
      ∃ stack : List C,
        get_context_stack parent_lock fuel (some p) l = some (stack ++ l) ∧
        stack.length = d + 1 ∧
        stack.head? = some top ∧
        stack.getLast? = some p ∧
        List.Chain' (fun a b => parent_lock b = some a) stack := by
  intro d
  induction d with
  | zero =>
    intro p l fuel hanc hfuel
    obtain ⟨f, rfl⟩ : ∃ f, fuel = f + 1 := ⟨fuel - 1, by omega⟩
    have hp : p = top := by simpa [ancestor] using hanc
    subst hp
    refine ⟨[p], ?_, rfl, rfl, rfl, List.chain'_singleton _⟩
    simp [get_context_stack, htop, get_context_stack_null]
  | succ d ih =>
    intro p l fuel hanc hfuel
    obtain ⟨f, rfl⟩ : ∃ f, fuel = f + 1 := ⟨fuel - 1, by omega⟩
    cases hq : parent_lock p with
    | none => simp [ancestor, hq] at hanc
    | some q =>
      have hanc2 : ancestor parent_lock d q = some top := by
        simpa [ancestor, hq] using hanc
      obtain ⟨stack, hrun, hlen, hhead, hlast, hchain⟩ :=
        ih q (p :: l) f hanc2 (by omega)
      refine ⟨stack ++ [p], ?_, by simp [hlen], ?_, by simp, ?_⟩
      · simp [get_context_stack, hq, hrun]
      · cases stack with
        | nil => simp at hlen
        | cons x xs => simpa using hhead
      · refine List.Chain'.append hchain (List.chain'_singleton _) ?_
        intro x hx y hy
        have hxq : x = q := by
          rw [hlast] at hx
          exact (Option.mem_some_iff.mp hx).symm
        have hyp : y = p := by simpa using hy.symm
        rw [hxq, hyp]
        exact hq

/-- C10: for a context `p` whose chain of parent references ends after `d` steps at a
context `top` without live parent, `get_context_stack(p, l)` terminates (any number of
rounds above `d` is enough) and puts in front of `l` the chain from `top` down to `p`: the
added contexts start with `top`, end with `p`, each is the parent of the next, there are
`d + 1` of them, and the previous contents of `l` follow unchanged; for a null `p` the list
is unchanged. -/
theorem get_context_stack_spec {C : Type} (parent_lock : C → Option C) (p top : C)
    (d fuel : Nat) (l : List C)
    (hchain : ancestor parent_lock d p = some top) (htop : parent_lock top = none)
    (hfuel : d + 1 ≤ fuel) :
    (∃ stack : List C,
      get_context_stack parent_lock fuel (some p) l = some (stack ++ l) ∧
      stack.length = d + 1 ∧
      stack.head? = some top ∧
      stack.getLast? = some p ∧
      List.Chain' (fun a b => parent_lock b = some a) stack) ∧
    get_context_stack parent_lock fuel none l = some l :=
  ⟨get_context_stack_chain parent_lock top htop d p l fuel hchain hfuel,
    get_context_stack_null parent_lock fuel l⟩

/-- Witness for `get_context_stack_spec`: contexts numbered so that the parent of `k + 1`
is `k` and context 0 has no parent; from context 3 the stack is 0, 1, 2, 3. -/
theorem get_context_stack_spec_witness :
    ancestor (fun k : Nat => if k = 0 then none else some (k - 1)) 3 3 = some 0 ∧
    (fun k : Nat => if k = 0 then none else some (k - 1)) 0 = none ∧
    3 + 1 ≤ 10 ∧
    get_context_stack (fun k : Nat => if k = 0 then none else some (k - 1)) 10 (some 3) [7]
      = some ([0, 1, 2, 3] ++ [7]) ∧
    ((∃ stack : List Nat,
      get_context_stack (fun k : Nat => if k = 0 then none else some (k - 1)) 10 (some 3) [7]
        = some (stack ++ [7]) ∧
      stack.length = 3 + 1 ∧
      stack.head? = some 0 ∧
      stack.getLast? = some 3 ∧
      List.Chain' (fun a b => (fun k : Nat => if k = 0 then none else some (k - 1)) b = some a)
        stack) ∧
    get_context_stack (fun k : Nat => if k = 0 then none else some (k - 1)) 10 none [7]
      = some [7]) :=
  ⟨by decide, by decide, by decide, by decide,
    get_context_stack_spec (fun k : Nat => if k = 0 then none else some (k - 1)) 3 0 3 10 [7]
      (by decide) (by decide) (by decide)⟩

/-! ### `tcp_segment::operator<` -/

/-- C8 as stated fails: the segment that starts at `0xFFFFFFFE` is earlier in the stream
than the one that starts at `0x00000002` (4 steps further, across the wrap), and yet the
operator puts the segment at `0x00000002` first. -/
theorem tcp_segment_lt_wrap_counterexample :
    (tcp_segment.mk [] 0xFFFFFFFE 0xFFFFFFFF).in_range ∧
    (tcp_segment.mk [] 0x00000002 0x00000003).in_range ∧
    earlier_in_stream (tcp_segment.mk [] 0xFFFFFFFE 0xFFFFFFFF)
      (tcp_segment.mk [] 0x00000002 0x00000003) ∧
    (tcp_segment.mk [] 0xFFFFFFFE 0xFFFFFFFF).lt (tcp_segment.mk [] 0x00000002 0x00000003)
      = false ∧
    (tcp_segment.mk [] 0x00000002 0x00000003).lt (tcp_segment.mk [] 0xFFFFFFFE 0xFFFFFFFF)
      = true := by
  refine ⟨?_, ?_, ?_, ?_, ?_⟩
  · unfold tcp_segment.in_range; decide
  · unfold tcp_segment.in_range; decide
  · unfold earlier_in_stream; decide
  · unfold tcp_segment.lt; decide
  · unfold tcp_segment.lt; decide

/-- C8, as the code has it: the operator compares the starting sequence numbers as plain
unsigned numbers.  For two segments whose starts are less than `2 ^ 31` apart in modular
32-bit arithmetic, the earlier one orders first exactly when the sequence numbers do not
wrap past `2 ^ 32` between the two starts, and the later one orders first exactly when they
do; the segment that starts at `0xFFFFFFFE` orders after the one that starts at
`0x00000002`. -/
theorem tcp_segment_lt_spec (a b : tcp_segment) (ha : a.in_range) (hb : b.in_range)
    (hab : earlier_in_stream a b) :
    (a.lt b = true ↔ a.first + (b.first + 2 ^ 32 - a.first) % 2 ^ 32 < 2 ^ 32) ∧
    (b.lt a = true ↔ 2 ^ 32 ≤ a.first + (b.first + 2 ^ 32 - a.first) % 2 ^ 32) ∧
    (a.lt b = true ↔ b.lt a = false) ∧
    (tcp_segment.mk [] 0x00000002 0x00000003).lt (tcp_segment.mk [] 0xFFFFFFFE 0xFFFFFFFF)
      = true := by
  obtain ⟨ha1, -⟩ := ha
  obtain ⟨hb1, -⟩ := hb
  obtain ⟨hne, -⟩ := hab
  simp only [tcp_segment.lt, decide_eq_true_eq, decide_eq_false_iff_not]
  have hpow : (2 : Nat) ^ 32 = 4294967296 := by norm_num
  rw [hpow] at ha1 hb1 ⊢
  refine ⟨?_, ?_, ?_, by decide⟩
  · constructor
    · intro h; omega
    · intro h; omega
  · constructor
    · intro h; omega
    · intro h; omega
  · omega

/-- Witness for `tcp_segment_lt_spec`: a segment at 100 and a segment at 200. -/
theorem tcp_segment_lt_spec_witness :
    (tcp_segment.mk [] 100 150).in_range ∧ (tcp_segment.mk [] 200 250).in_range ∧
    earlier_in_stream (tcp_segment.mk [] 100 150) (tcp_segment.mk [] 200 250) ∧
    ((tcp_segment.mk [] 100 150).lt (tcp_segment.mk [] 200 250) = true ↔
      (tcp_segment.mk [] 100 150).first +
        ((tcp_segment.mk [] 200 250).first + 2 ^ 32 - (tcp_segment.mk [] 100 150).first)
          % 2 ^ 32 < 2 ^ 32) :=
  have h1 : (tcp_segment.mk [] 100 150).in_range := by unfold tcp_segment.in_range; decide
  have h2 : (tcp_segment.mk [] 200 250).in_range := by unfold tcp_segment.in_range; decide
  have h3 : earlier_in_stream (tcp_segment.mk [] 100 150) (tcp_segment.mk [] 200 250) := by
    unfold earlier_in_stream; decide
  ⟨h1, h2, h3, (tcp_segment_lt_spec _ _ h1 h2 h3).1⟩

/-! ### `http_parser::reset_transaction` -/

/-- C9: after `reset_transaction` the strings `protocol`, `method`, `url`, `code` and
`status` are empty and so are the header map and the body; `variant`, `state`, `key`,
`value`, `chunk_length` and `content_remaining` (and `codeval`) are as before; and the
method applied twice gives what it gives applied once. -/
theorem reset_transaction_spec (hp : http_parser_t) :
    hp.reset_transaction.protocol = "" ∧
    hp.reset_transaction.method = "" ∧
    hp.reset_transaction.url = "" ∧
    hp.reset_transaction.code = "" ∧
    hp.reset_transaction.status = "" ∧
    hp.reset_transaction.header = [] ∧
    hp.reset_transaction.body = [] ∧
    hp.reset_transaction.variant = hp.variant ∧
    hp.reset_transaction.state = hp.state ∧
    hp.reset_transaction.key = hp.key ∧
    hp.reset_transaction.value = hp.value ∧
    hp.reset_transaction.chunk_length = hp.chunk_length ∧
    hp.reset_transaction.content_remaining = hp.content_remaining ∧
    hp.reset_transaction.codeval = hp.codeval ∧
    hp.reset_transaction.reset_transaction = hp.reset_transaction :=
  ⟨rfl, rfl, rfl, rfl, rfl, rfl, rfl, rfl, rfl, rfl, rfl, rfl, rfl, rfl, rfl⟩

/-! ### The constructors of `nhis11_sender` and `etsi_li_sender` -/

theorem takeWhile_isDigit_append (ds rest : List Char)
    (hds : ∀ c ∈ ds, c.isDigit = true) (hrest : ∀ c ∈ rest.head?, c.isDigit = false) :
    (ds ++ rest).takeWhile Char.isDigit = ds := by
  induction ds with
  | nil =>
    cases rest with
    | nil => rfl
    | cons c r =>
      have : c.isDigit = false := hrest c (by simp)
      simp [List.takeWhile_cons, this]
  | cons c ds ih =>
    have hc : c.isDigit = true := hds c (List.mem_cons_self _ _)
    have := ih (fun x hx => hds x (List.mem_cons_of_mem _ hx))
    simp [List.takeWhile_cons, hc, this]

theorem is_space_of_isDigit (c : Char) (h : c.isDigit = true) : is_space c = false := by
  have h1 : (c == ' ') = false := by
    rw [beq_eq_false_iff_ne]; rintro rfl; exact absurd h (by decide)
  have h2 : (c == '\t') = false := by
    rw [beq_eq_false_iff_ne]; rintro rfl; exact absurd h (by decide)
  have h3 : (c == '\n') = false := by
    rw [beq_eq_false_iff_ne]; rintro rfl; exact absurd h (by decide)
  have h4 : (c == '\x0b') = false := by
    rw [beq_eq_false_iff_ne]; rintro rfl; exact absurd h (by decide)
  have h5 : (c == '\x0c') = false := by
    rw [beq_eq_false_iff_ne]; rintro rfl; exact absurd h (by decide)
  have h6 : (c == '\r') = false := by
    rw [beq_eq_false_iff_ne]; rintro rfl; exact absurd h (by decide)
  simp [is_space, h1, h2, h3, h4, h5, h6]

theorem read_sign_of_no_sign (c : Char) (r : List Char) (hminus : c ≠ '-')
    (hplus : c ≠ '+') : read_sign (c :: r) = (false, c :: r) := by
  unfold read_sign
  split
  · rename_i heq
    exact absurd (List.cons.inj heq).1 hminus
  · rename_i heq
    exact absurd (List.cons.inj heq).1 hplus
  · rfl

/-- A value that begins with a run of decimal digits, followed by the end of the string or
by a character that is not a digit, is extracted as the value of the run. -/
theorem extract_unsigned_of_digits (par : String) (ds rest : List Char)
    (hpar : par.data = ds ++ rest) (hne : ds ≠ [])
    (hds : ∀ c ∈ ds, c.isDigit = true) (hrest : ∀ c ∈ rest.head?, c.isDigit = false)
    (hfit : digits_value ds ≤ UINT_MAX) :
    extract_unsigned par = digits_value ds := by
  cases ds with
  | nil => exact absurd rfl hne
  | cons c ds1 =>
    have hc : c.isDigit = true := hds c (List.mem_cons_self _ _)
    have hsp : is_space c = false := is_space_of_isDigit c hc
    have hminus : c ≠ '-' := by rintro rfl; exact absurd hc (by decide)
    have hplus : c ≠ '+' := by rintro rfl; exact absurd hc (by decide)
    have htake := takeWhile_isDigit_append (c :: ds1) rest hds hrest
    have hdrop : List.dropWhile is_space par.data = c :: (ds1 ++ rest) := by
      rw [hpar]
      simp [List.dropWhile_cons, hsp]
    have hlt : ¬ UINT_MAX < digits_value (c :: ds1) := by omega
    simp only [List.cons_append] at htake
    unfold extract_unsigned
    rw [hdrop, read_sign_of_no_sign c _ hminus hplus]
    simp [htake, hlt]

/-- A value that is empty, or begins with a character that is neither a digit, nor a sign,
nor white space, is extracted as 0. -/
theorem extract_unsigned_of_no_digit (par : String)
    (h : par.data = [] ∨
      ∃ c r, par.data = c :: r ∧ c.isDigit = false ∧ is_space c = false ∧
        c ≠ '+' ∧ c ≠ '-') :
    extract_unsigned par = 0 := by
  unfold extract_unsigned
  rcases h with h | ⟨c, r, h, hd, hsp, hplus, hminus⟩
  · have hsign : read_sign [] = (false, []) := rfl
    rw [h]
    simp [hsign]
  · have hdrop : List.dropWhile is_space par.data = c :: r := by
      rw [h]
      simp [List.dropWhile_cons, hsp]
    rw [hdrop, read_sign_of_no_sign c _ hminus hplus]
    simp [List.takeWhile_cons, hd]

theorem nhis11_create_cases (h : String) (p : Nat) (transp : String)
    (params : List (String × String)) (globals : parameterised) :
    nhis11_sender.create h p transp params globals =
      if transp = "tls" then
        .ok { base := sender.create, h := h, p := p, params := params, tls := true }
      else if transp = "tcp" then
        .ok { base := sender.create, h := h, p := p, params := params, tls := false }
      else .error ⟨"Transport " ++ transp ++ " not known."⟩ := rfl

theorem etsi_create_of_extract_zero (h : String) (p : Nat) (transp : String)
    (params : List (String × String)) (globals : parameterised)
    (hz : extract_unsigned (globals.get_parameter "etsi-streams" "12") = 0) :
    etsi_li_sender.create h p transp params globals =
      .error ⟨"Couldn\x27t parse etsi-streams value: " ++
        globals.get_parameter "etsi-streams" "12"⟩ := by
  simp [etsi_li_sender.create, hz]

theorem etsi_create_of_extract_pos (h : String) (p : Nat) (transp : String)
    (params : List (String × String)) (globals : parameterised)
    (hz : extract_unsigned (globals.get_parameter "etsi-streams" "12") ≠ 0) :
    etsi_li_sender.create h p transp params globals =
      if transp = "tls" then
        .ok { base := sender.create,
              num_connects := extract_unsigned (globals.get_parameter "etsi-streams" "12"),
              transports := extract_unsigned (globals.get_parameter "etsi-streams" "12"),
              h := h, p := p, params := params, cur_connect := 0, tls := true }
      else if transp = "tcp" then
        .ok { base := sender.create,
              num_connects := extract_unsigned (globals.get_parameter "etsi-streams" "12"),
              transports := extract_unsigned (globals.get_parameter "etsi-streams" "12"),
              h := h, p := p, params := params, cur_connect := 0, tls := false }
      else .error ⟨"Transport " ++ transp ++ " not known."⟩ := by
  simp [etsi_li_sender.create, hz]

theorem tcp_ne_tls : ("tcp" : String) ≠ "tls" := by decide

/-- C6: the construction of an `nhis11_sender`, and of an `etsi_li_sender` whose
`etsi-streams` value is accepted, fails with a runtime error if and only if the transport
is neither `tls` nor `tcp`; when it succeeds the flag `tls` is true exactly when the
transport is `tls`. -/
theorem sender_transport_spec (h : String) (p : Nat) (transp : String)
    (params : List (String × String)) (globals : parameterised) :
    ((∃ err, nhis11_sender.create h p transp params globals = .error err) ↔
      (transp ≠ "tls" ∧ transp ≠ "tcp")) ∧
    (∀ s, nhis11_sender.create h p transp params globals = .ok s →
      (s.tls = true ↔ transp = "tls")) ∧
    (extract_unsigned (globals.get_parameter "etsi-streams" "12") ≠ 0 →
      ((∃ err, etsi_li_sender.create h p transp params globals = .error err) ↔
        (transp ≠ "tls" ∧ transp ≠ "tcp")) ∧
      (∀ s, etsi_li_sender.create h p transp params globals = .ok s →
        (s.tls = true ↔ transp = "tls"))) := by
  refine ⟨?_, ?_, ?_⟩
  · rw [nhis11_create_cases]
    by_cases h1 : transp = "tls"
    · simp [h1]
    · by_cases h2 : transp = "tcp"
      · simp [h2, tcp_ne_tls]
      · simp [h1, h2]
  · intro s hs
    rw [nhis11_create_cases] at hs
    by_cases h1 : transp = "tls"
    · simp only [h1, if_true, Except.ok.injEq] at hs
      subst hs
      simp [h1]
    · by_cases h2 : transp = "tcp"
      · simp only [h2, tcp_ne_tls, if_false, if_true, Except.ok.injEq] at hs
        subst hs
        simp [h2, tcp_ne_tls]
      · simp [h1, h2] at hs
  · intro hz
    rw [etsi_create_of_extract_pos h p transp params globals hz]
    refine ⟨?_, ?_⟩
    · by_cases h1 : transp = "tls"
      · simp [h1]
      · by_cases h2 : transp = "tcp"
        · simp [h2, tcp_ne_tls]
        · simp [h1, h2]
    · intro s hs
      by_cases h1 : transp = "tls"
      · simp only [h1, if_true, Except.ok.injEq] at hs
        subst hs
        simp [h1]
      · by_cases h2 : transp = "tcp"
        · simp only [h2, tcp_ne_tls, if_false, if_true, Except.ok.injEq] at hs
          subst hs
          simp [h2, tcp_ne_tls]
        · simp [h1, h2] at hs

/-- Witness for `sender_transport_spec`: transport `udp` with the default `etsi-streams`
value; both constructions fail. -/
theorem sender_transport_spec_witness :
    extract_unsigned ((parameterised.mk []).get_parameter "etsi-streams" "12") ≠ 0 ∧
    (("udp" : String) ≠ "tls" ∧ ("udp" : String) ≠ "tcp") ∧
    (∃ err, etsi_li_sender.create "host" 9000 "udp" [] (parameterised.mk []) = .error err) :=
  ⟨by decide, by decide,
    ((sender_transport_spec "host" 9000 "udp" [] (parameterised.mk [])).2.2
      (by decide)).1.mpr (by decide)⟩

/-- C7 as stated fails: the value `12abc` is not the decimal numeral of a positive integer,
and with it the construction succeeds, with 12 connections. -/
theorem etsi_streams_trailing_text_accepted :
    ¬ positive_decimal_numeral "12abc" ∧
    etsi_li_sender.create "host" 9000 "tcp" []
        (parameterised.mk [("etsi-streams", "12abc")])
      = .ok { base := sender.create, num_connects := 12, transports := 12, h := "host",
              p := 9000, params := [], cur_connect := 0, tls := false } := by
  refine ⟨?_, rfl⟩
  unfold positive_decimal_numeral
  decide

/-- C7, as the code has it: the construction of an `etsi_li_sender` fails with a runtime
error when the `etsi-streams` value is extracted as 0; that is so when the value is empty or
begins with a character that is neither a digit, nor a sign, nor white space, and when it
begins with a decimal numeral of value 0.  A value that begins with the decimal numeral of
a positive integer up to `UINT_MAX`, followed by nothing or by text that starts with a
character other than a digit, gives, with a valid transport, a sender whose `num_connects`
is the value of that numeral.  When the parameter is absent the default `12` is used and
`num_connects` is 12. -/
theorem etsi_streams_spec (h : String) (p : Nat) (transp : String)
    (params : List (String × String)) (globals : parameterised) :
    (extract_unsigned (globals.get_parameter "etsi-streams" "12") = 0 →
      etsi_li_sender.create h p transp params globals =
        .error ⟨"Couldn\x27t parse etsi-streams value: " ++
          globals.get_parameter "etsi-streams" "12"⟩) ∧
    (((globals.get_parameter "etsi-streams" "12").data = [] ∨
        ∃ c r, (globals.get_parameter "etsi-streams" "12").data = c :: r ∧
          c.isDigit = false ∧ is_space c = false ∧ c ≠ '+' ∧ c ≠ '-') →
      ∃ err, etsi_li_sender.create h p transp params globals = .error err) ∧
    (∀ ds rest : List Char,
      (globals.get_parameter "etsi-streams" "12").data = ds ++ rest →
      ds ≠ [] → (∀ c ∈ ds, c.isDigit = true) → (∀ c ∈ rest.head?, c.isDigit = false) →
      digits_value ds ≤ UINT_MAX →
        (digits_value ds = 0 →
          ∃ err, etsi_li_sender.create h p transp params globals = .error err) ∧
        (0 < digits_value ds → (transp = "tls" ∨ transp = "tcp") →
          ∃ s, etsi_li_sender.create h p transp params globals = .ok s ∧
            s.num_connects = digits_value ds)) ∧
    (map_find globals.parameters "etsi-streams" = none →
      globals.get_parameter "etsi-streams" "12" = "12" ∧
      ((transp = "tls" ∨ transp = "tcp") →
        ∃ s, etsi_li_sender.create h p transp params globals = .ok s ∧
          s.num_connects = 12)) := by
  have hok : ∀ v : Nat, extract_unsigned (globals.get_parameter "etsi-streams" "12") = v →
      0 < v → (transp = "tls" ∨ transp = "tcp") →
      ∃ s, etsi_li_sender.create h p transp params globals = .ok s ∧ s.num_connects = v := by
    intro v hv hpos htr
    have hz : extract_unsigned (globals.get_parameter "etsi-streams" "12") ≠ 0 := by omega
    rw [etsi_create_of_extract_pos h p transp params globals hz]
    rcases htr with rfl | rfl
    · rw [if_pos rfl]
      exact ⟨_, rfl, hv⟩
    · rw [if_neg tcp_ne_tls, if_pos rfl]
      exact ⟨_, rfl, hv⟩
  refine ⟨fun hz => etsi_create_of_extract_zero h p transp params globals hz, ?_, ?_, ?_⟩
  · intro hbad
    exact ⟨_, etsi_create_of_extract_zero h p transp params globals
      (extract_unsigned_of_no_digit _ hbad)⟩
  · intro ds rest hpar hne hds hrest hfit
    have hval := extract_unsigned_of_digits _ ds rest hpar hne hds hrest hfit
    refine ⟨fun h0 => ⟨_, etsi_create_of_extract_zero h p transp params globals
      (by rw [hval, h0])⟩, fun hpos htr => hok _ hval hpos htr⟩
  · intro habsent
    have hpar : globals.get_parameter "etsi-streams" "12" = "12" := by
      simp [parameterised.get_parameter, habsent]
    refine ⟨hpar, fun htr => hok 12 ?_ (by decide) htr⟩
    rw [hpar]
    decide

/-- Witness for `etsi_streams_spec`: the value `12abc` with transport `tcp` gives a sender
with 12 connections. -/
theorem etsi_streams_spec_witness :
    (((parameterised.mk [("etsi-streams", "12abc")]).get_parameter "etsi-streams" "12").data
      = ['1', '2'] ++ ['a', 'b', 'c']) ∧
    digits_value ['1', '2'] = 12 ∧
    (∃ s, etsi_li_sender.create "host" 9000 "tcp" []
            (parameterised.mk [("etsi-streams", "12abc")]) = .ok s ∧
          s.num_connects = digits_value ['1', '2']) :=
  ⟨by decide, by decide,
    ((etsi_streams_spec "host" 9000 "tcp" []
        (parameterised.mk [("etsi-streams", "12abc")])).2.2.1
      ['1', '2'] ['a', 'b', 'c'] (by decide) (by decide) (by decide) (by decide)
      (by decide)).2 (by decide) (Or.inr rfl)⟩

/-! ### `normalise_url`, applied again -/

theorem already_normalised_http (host url : String) :
    already_normalised ("http://" ++ host ++ url) = true := by
  rw [already_normalised_iff]
  refine ⟨['h', 't', 't', 'p'], ['/', '/'] ++ host.data ++ url.data, by simp, ?_, ?_⟩
  · decide
  · simp [String.data_append]

/-- C15: the result of `normalise_url` begins with one or more ASCII letters followed by a
colon, whatever the host and the target, and `normalise_url` with any host returns that
result unchanged. -/
theorem normalise_url_idempotent (host host2 url : String) :
    begins_with_scheme (normalise_url host url) ∧
    normalise_url host2 (normalise_url host url) = normalise_url host url := by
  have h : already_normalised (normalise_url host url) = true := by
    unfold normalise_url
    by_cases hu : already_normalised url = true
    · simp [hu]
    · simp [hu, already_normalised_http]
  refine ⟨(already_normalised_iff _).mp h, ?_⟩
  generalize normalise_url host url = r at h
  simp [normalise_url, h]

/-! ### The segment set -/

theorem set_insert_mem (s : List tcp_segment) (x a : tcp_segment)
    (h : a ∈ set_insert s x) : a = x ∨ a ∈ s := by
  induction s with
  | nil => simpa [set_insert] using h
  | cons y ys ih =>
    unfold set_insert at h
    split at h
    · rcases List.mem_cons.mp h with h | h
      · exact Or.inl h
      · exact Or.inr h
    · split at h
      · rcases List.mem_cons.mp h with h | h
        · exact Or.inr (h ▸ List.mem_cons_self _ _)
        · rcases ih h with h | h
          · exact Or.inl h
          · exact Or.inr (List.mem_cons_of_mem _ h)
      · exact Or.inr h

theorem set_insert_sorted (s : List tcp_segment) (x : tcp_segment)
    (hs : s.Pairwise (fun a b => a.first < b.first)) :
    (set_insert s x).Pairwise (fun a b => a.first < b.first) := by
  induction s with
  | nil => simp [set_insert]
  | cons y ys ih =>
    obtain ⟨hy, hys⟩ := List.pairwise_cons.mp hs
    unfold set_insert
    split
    · rename_i hlt
      have hxy : x.first < y.first := by simpa [tcp_segment.lt] using hlt
      refine List.pairwise_cons.mpr ⟨?_, hs⟩
      intro a ha
      rcases List.mem_cons.mp ha with rfl | ha
      · exact hxy
      · exact lt_trans hxy (hy a ha)
    · split
      · rename_i hlt
        have hyx : y.first < x.first := by simpa [tcp_segment.lt] using hlt
        refine List.pairwise_cons.mpr ⟨?_, ih hys⟩
        intro a ha
        rcases set_insert_mem ys x a ha with rfl | ha
        · exact hyx
        · exact hy a ha
      · exact hs

theorem set_of_inserts_sorted (xs : List tcp_segment) :
    (set_of_inserts xs).Pairwise (fun a b => a.first < b.first) := by
  have gen : ∀ (ys acc : List tcp_segment),
      acc.Pairwise (fun a b => a.first < b.first) →
      (ys.foldl set_insert acc).Pairwise (fun a b => a.first < b.first) := by
    intro ys
    induction ys with
    | nil => intro acc h; exact h
    | cons y ys ih => intro acc h; exact ih _ (set_insert_sorted acc y h)
  exact gen xs [] List.Pairwise.nil

theorem sorted_first_injective (s : List tcp_segment)
    (hs : s.Pairwise (fun a b => a.first < b.first)) (a b : tcp_segment)
    (ha : a ∈ s) (hb : b ∈ s) (hab : a.first = b.first) : a = b := by
  induction s with
  | nil => simp at ha
  | cons y ys ih =>
    obtain ⟨hy, hys⟩ := List.pairwise_cons.mp hs
    rcases List.mem_cons.mp ha with rfl | ha1
    · rcases List.mem_cons.mp hb with rfl | hb1
      · rfl
      · have := hy b hb1
        omega
    · rcases List.mem_cons.mp hb with rfl | hb1
      · have := hy a ha1
        omega
      · exact ih hys ha1 hb1

theorem set_insert_duplicate (s : List tcp_segment)
    (hs : s.Pairwise (fun a b => a.first < b.first)) (x y : tcp_segment)
    (hy : y ∈ s) (hxy : y.first = x.first) : set_insert s x = s := by
  induction s with
  | nil => simp at hy
  | cons z zs ih =>
    obtain ⟨hz, hzs⟩ := List.pairwise_cons.mp hs
    unfold set_insert
    split
    · rename_i hlt
      have hxz : x.first < z.first := by simpa [tcp_segment.lt] using hlt
      rcases List.mem_cons.mp hy with rfl | hy1
      · omega
      · have := hz y hy1
        omega
    · split
      · rename_i hlt
        have hzx : z.first < x.first := by simpa [tcp_segment.lt] using hlt
        rcases List.mem_cons.mp hy with rfl | hy1
        · omega
        · rw [ih hzs hy1]
      · rfl

/-- C12: two segments are equivalent under `operator<` (neither is less than the other)
if and only if their `first` are equal, whatever their `last` and payload; a set built by
calls of `insert` holds at most one segment per `first`; and inserting a segment whose
`first` equals that of a segment in the set leaves the set as it is. -/
theorem tcp_segment_set_spec (a b : tcp_segment) (xs : List tcp_segment) :
    ((a.lt b = false ∧ b.lt a = false) ↔ a.first = b.first) ∧
    (∀ x ∈ set_of_inserts xs, ∀ y ∈ set_of_inserts xs, x.first = y.first → x = y) ∧
    (∀ x y : tcp_segment, y ∈ set_of_inserts xs → y.first = x.first →
      set_insert (set_of_inserts xs) x = set_of_inserts xs) := by
  refine ⟨?_, ?_, ?_⟩
  · simp only [tcp_segment.lt, decide_eq_false_iff_not]
    constructor
    · rintro ⟨h1, h2⟩; omega
    · intro h; omega
  · intro x hx y hy hxy
    exact sorted_first_injective _ (set_of_inserts_sorted xs) x y hx hy hxy
  · intro x y hy hxy
    exact set_insert_duplicate _ (set_of_inserts_sorted xs) x y hy hxy

/-- Witness for `tcp_segment_set_spec`: after the segments at 200 and at 100 are
inserted, a segment at 100 with another payload and end is not taken. -/
theorem tcp_segment_set_spec_witness :
    tcp_segment.mk [1] 100 101 ∈
      set_of_inserts [tcp_segment.mk [7, 8] 200 202, tcp_segment.mk [1] 100 101] ∧
    set_insert
        (set_of_inserts [tcp_segment.mk [7, 8] 200 202, tcp_segment.mk [1] 100 101])
        (tcp_segment.mk [5, 5, 5] 100 103)
      = [tcp_segment.mk [1] 100 101, tcp_segment.mk [7, 8] 200 202] :=
  ⟨by decide,
    ((tcp_segment_set_spec (tcp_segment.mk [] 0 0) (tcp_segment.mk [] 0 0)
        [tcp_segment.mk [7, 8] 200 202, tcp_segment.mk [1] 100 101]).2.2
      (tcp_segment.mk [5, 5, 5] 100 103) (tcp_segment.mk [1] 100 101) (by decide) rfl).trans
      (by decide)⟩

/-! ### `sender::stop` and `sender::join` -/

theorem sender_call_running (s : sender) (c : sender_call) (h : s.running = false) :
    (s.call c).running = false := by
  cases c with
  | start t => exact h
  | stop => rfl
  | join =>
    unfold sender.call sender.join
    cases s.thr <;> exact h

theorem sender_calls_running (cs : List sender_call) :
    ∀ s : sender, s.running = false → (s.calls cs).running = false := by
  induction cs with
  | nil => intro s h; exact h
  | cons c cs ih => intro s h; exact ih (s.call c) (sender_call_running s c h)

/-- C13: a newly constructed sender has `running` true and no thread; `stop` clears
`running` and leaves the queue and the thread pointer as they are; after `stop`, `running`
is false after every sequence of calls of `start`, `stop` and `join`; and `join` on a sender
without thread leaves the sender as it is. -/
theorem sender_stop_spec (s : sender) (cs : List sender_call) :
    sender.create.running = true ∧ sender.create.thr = none ∧
    s.stop.running = false ∧ s.stop.packets = s.packets ∧ s.stop.thr = s.thr ∧
    (s.stop.calls cs).running = false ∧
    (s.thr = none → s.join = s) ∧
    sender.create.join = sender.create := by
  refine ⟨rfl, rfl, rfl, rfl, rfl, sender_calls_running cs s.stop rfl, ?_, rfl⟩
  intro h
  unfold sender.join
  rw [h]

/-- Witness for `sender_stop_spec`: a sender that was never started, with one packet in its
queue. -/
theorem sender_stop_spec_witness :
    (sender.mk [qpdu.mk msg_type_t.PDU ⟨1, 0⟩ "d" "n" [1, 2] none direction.NOT_KNOWN]
      true none).thr = none ∧
    (sender.mk [qpdu.mk msg_type_t.PDU ⟨1, 0⟩ "d" "n" [1, 2] none direction.NOT_KNOWN]
      true none).join
      = sender.mk [qpdu.mk msg_type_t.PDU ⟨1, 0⟩ "d" "n" [1, 2] none direction.NOT_KNOWN]
          true none :=
  ⟨rfl,
    (sender_stop_spec
      (sender.mk [qpdu.mk msg_type_t.PDU ⟨1, 0⟩ "d" "n" [1, 2] none direction.NOT_KNOWN]
        true none) []).2.2.2.2.2.2.1 rfl⟩

/-! ### The constructors of `tcp_context` and of the HTTP contexts -/

/-- C11: a newly constructed `tcp_context`, for every flow address `a` and parent `p`, has
`syn_observed`, `fin_observed`, `connected` and `svc_idented` false, a null `processor`, an
empty identification buffer and an empty segment set, and its `addr` is `a` and its `parent`
is `p`. -/
theorem tcp_context_construct_spec {H : Type} (api : tcp_ports_t H) (u : unspecified)
    (hs : H) (a : flow_address) (p : context_ptr) :
    (tcp_context.construct api u hs a p).1.syn_observed = false ∧
    (tcp_context.construct api u hs a p).1.fin_observed = false ∧
    (tcp_context.construct api u hs a p).1.connected = false ∧
    (tcp_context.construct api u hs a p).1.svc_idented = false ∧
    (tcp_context.construct api u hs a p).1.processor = none ∧
    (tcp_context.construct api u hs a p).1.ident_buffer = "" ∧
    (tcp_context.construct api u hs a p).1.segments = [] ∧
    (tcp_context.construct api u hs a p).1.addr = a ∧
    (tcp_context.construct api u hs a p).1.parent = p := by
  unfold tcp_context.construct
  cases api.is_handlers_init hs <;>
    exact ⟨rfl, rfl, rfl, rfl, rfl, rfl, rfl, rfl, rfl⟩

theorem http_parser_construct_fields (raw : http_parser_t) (var : variant_t) :
    (http_parser_t.construct raw var).variant = var ∧
    (http_parser_t.construct raw var).state =
      (if var = variant_t.REQUEST then state_t.IN_REQUEST_METHOD
       else state_t.IN_RESPONSE_PROTOCOL) ∧
    (http_parser_t.construct raw var).protocol = "" ∧
    (http_parser_t.construct raw var).method = "" ∧
    (http_parser_t.construct raw var).url = "" ∧
    (http_parser_t.construct raw var).code = "" ∧
    (http_parser_t.construct raw var).status = "" ∧
    (http_parser_t.construct raw var).header = [] ∧
    (http_parser_t.construct raw var).body = [] := by
  cases var <;> exact ⟨rfl, rfl, rfl, rfl, rfl, rfl, rfl, rfl, rfl⟩

/-- C14: a newly constructed `http_parser` has the state `IN_REQUEST_METHOD` for the variant
`REQUEST` and `IN_RESPONSE_PROTOCOL` for the variant `RESPONSE`, and in both cases
`protocol`, `method`, `url`, `code` and `status` are empty strings and the header map and
the body are empty; a new `http_request_context` (from either constructor) is such a
parser of the variant `REQUEST` with `streaming` and `streaming_requested` false, and a new
`http_response_context` is such a parser of the variant `RESPONSE` with `streaming`
false. -/
theorem http_parser_construct_spec (raw : http_parser_t) (var : variant_t)
    (u : unspecified) (a : flow_address) (p : context_ptr) :
    (http_parser_t.construct raw variant_t.REQUEST).state = state_t.IN_REQUEST_METHOD ∧
    (http_parser_t.construct raw variant_t.RESPONSE).state = state_t.IN_RESPONSE_PROTOCOL ∧
    ((http_parser_t.construct raw var).variant = var ∧
      (http_parser_t.construct raw var).protocol = "" ∧
      (http_parser_t.construct raw var).method = "" ∧
      (http_parser_t.construct raw var).url = "" ∧
      (http_parser_t.construct raw var).code = "" ∧
      (http_parser_t.construct raw var).status = "" ∧
      (http_parser_t.construct raw var).header = [] ∧
      (http_parser_t.construct raw var).body = []) ∧
    ((http_request_context.construct u).tohttp_parser_t =
        http_parser_t.construct u.parser variant_t.REQUEST ∧
      (http_request_context.construct u).streaming = false ∧
      (http_request_context.construct u).streaming_requested = false) ∧
    ((http_request_context.construct_at u a p).tohttp_parser_t =
        http_parser_t.construct u.parser variant_t.REQUEST ∧
      (http_request_context.construct_at u a p).streaming = false ∧
      (http_request_context.construct_at u a p).streaming_requested = false) ∧
    ((http_response_context.construct u).tohttp_parser_t =
        http_parser_t.construct u.parser variant_t.RESPONSE ∧
      (http_response_context.construct u).streaming = false) ∧
    ((http_response_context.construct_at u a p).tohttp_parser_t =
        http_parser_t.construct u.parser variant_t.RESPONSE ∧
      (http_response_context.construct_at u a p).streaming = false) := by
  obtain ⟨h1, -, h3, h4, h5, h6, h7, h8, h9⟩ := http_parser_construct_fields raw var
  exact ⟨rfl, rfl, ⟨h1, h3, h4, h5, h6, h7, h8, h9⟩, ⟨rfl, rfl, rfl⟩, ⟨rfl, rfl, rfl⟩,
    ⟨rfl, rfl⟩, ⟨rfl, rfl⟩⟩

/-! ### `get_or_create` -/

theorem le_max_address (objs : List (Nat × context_obj)) (a : Nat) (o : context_obj)
    (h : map_find objs a = some o) : a ≤ (objs.map Prod.fst).foldr max 0 := by
  induction objs with
  | nil => simp [map_find] at h
  | cons kv m ih =>
    obtain ⟨k1, v1⟩ := kv
    simp only [List.map_cons, List.foldr_cons]
    by_cases hk : k1 = a
    · subst hk
      exact le_max_left _ _
    · simp only [map_find, hk, if_false] at h
      exact le_trans (ih h) (le_max_right _ _)

theorem ne_fresh_address (objs : List (Nat × context_obj)) (a : Nat) (o : context_obj)
    (h : map_find objs a = some o) : a ≠ fresh_address objs := by
  have := le_max_address objs a o h
  unfold fresh_address
  omega

theorem fresh_address_unused (objs : List (Nat × context_obj)) :
    map_find objs (fresh_address objs) = none := by
  cases h : map_find objs (fresh_address objs) with
  | none => rfl
  | some o => exact absurd rfl (ne_fresh_address objs _ o h)

theorem set_children_base (o : context_obj) (ch : List (flow_address × Nat)) :
    (o.set_children ch).base.children = ch ∧
    (o.set_children ch).base.addr = o.base.addr ∧
    (o.set_children ch).base.parent = o.base.parent ∧
    (o.set_children ch).subtype = o.subtype := by
  cases o <;> exact ⟨rfl, rfl, rfl, rfl⟩

theorem constructed_fields {H : Type} (api : tcp_ports_t H) (u : unspecified) (s : store H)
    (X : subtype_t) (f : flow_address) (par : context_ptr) :
    (constructed api u s X f par).subtype = some X ∧
    (constructed api u s X f par).base.addr = f ∧
    (constructed api u s X f par).base.parent = par ∧
    (constructed api u s X f par).base.children = [] := by
  cases X
  case tcp =>
    simp only [constructed, tcp_context.construct]
    cases api.is_handlers_init s.tcp_ports <;> exact ⟨rfl, rfl, rfl, rfl⟩
  all_goals exact ⟨rfl, rfl, rfl, rfl⟩

theorem create_of_result {H : Type} (api : tcp_ports_t H) (u : unspecified) (s : store H)
    (X : subtype_t) (f : flow_address) (par : context_ptr) :
    (create_of api u X s f par).2 = fresh_address s.objs ∧
    (create_of api u X s f par).1.objs =
      map_insert s.objs (fresh_address s.objs) (constructed api u s X f par) := by
  cases X
  case tcp =>
    simp only [create_of, tcp_context.create, constructed, tcp_context.construct]
    cases api.is_handlers_init s.tcp_ports <;> exact ⟨rfl, rfl⟩
  all_goals exact ⟨rfl, rfl⟩

theorem get_or_create_of_eq {H : Type} (api : tcp_ports_t H) (u : unspecified)
    (X : subtype_t) (s : store H) (base : context_ptr) (f : flow_address) :
    get_or_create_of api u X s base f =
      match context.get_or_create s base f (create_of api u X) with
      | none => none
      | some (s1, cp) => some (s1, dynamic_pointer_cast s1 X cp) := by
  cases X <;> rfl

theorem context_get_or_create_found {H : Type} (s : store H) (b : Nat) (bo : context_obj)
    (f : flow_address) (cf : creator H) (ch : Nat)
    (hbase : map_find s.objs b = some bo) (hch : map_find bo.base.children f = some ch) :
    context.get_or_create s (some b) f cf = some (s, some ch) := by
  simp [context.get_or_create, hbase, hch]

theorem context_get_or_create_made {H : Type} (s : store H) (b : Nat) (bo : context_obj)
    (f : flow_address) (cf : creator H)
    (hbase : map_find s.objs b = some bo) (hch : map_find bo.base.children f = none) :
    context.get_or_create s (some b) f cf =
      some ({ (cf s f (some b)).1 with
              objs := map_update (cf s f (some b)).1.objs b
                (fun o => o.set_children
                  (map_insert o.base.children f (cf s f (some b)).2)) },
            some (cf s f (some b)).2) := by
  simp [context.get_or_create, hbase, hch]

theorem made_objs_facts (objs : List (Nat × context_obj)) (n b : Nat)
    (new bo : context_obj) (g : context_obj → context_obj)
    (hn : map_find objs n = none) (hbase : map_find objs b = some bo) :
    map_find (map_update (map_insert objs n new) b g) n = some new ∧
    map_find (map_update (map_insert objs n new) b g) b = some (g bo) ∧
    (∀ x o, map_find (map_update (map_insert objs n new) b g) x = some o →
      (x = n ∧ o = new) ∨ (x = b ∧ o = g bo) ∨
      (x ≠ b ∧ x ≠ n ∧ map_find objs x = some o)) := by
  have hbn : b ≠ n := by
    rintro rfl
    rw [hn] at hbase
    exact Option.noConfusion hbase
  refine ⟨?_, ?_, ?_⟩
  · rw [map_find_update_ne _ _ _ _ (Ne.symm hbn), map_find_insert_self]
  · rw [map_find_update_self, map_find_insert_ne _ _ _ _ hbn, hbase]
    rfl
  · intro x o hx
    by_cases hxb : x = b
    · subst hxb
      rw [map_find_update_self, map_find_insert_ne _ _ _ _ hbn, hbase] at hx
      exact Or.inr (Or.inl ⟨rfl, (Option.some.inj hx).symm⟩)
    · rw [map_find_update_ne _ _ _ _ hxb] at hx
      by_cases hxn : x = n
      · subst hxn
        rw [map_find_insert_self] at hx
        exact Or.inl ⟨rfl, (Option.some.inj hx).symm⟩
      · rw [map_find_insert_ne _ _ _ _ hxn] at hx
        exact Or.inr (Or.inr ⟨hxb, hxn, hx⟩)

theorem made_objs_keeps (objs : List (Nat × context_obj)) (n b : Nat)
    (new bo : context_obj) (chs : List (flow_address × Nat))
    (hn : map_find objs n = none) (hbase : map_find objs b = some bo)
    (x : Nat) (c : context_obj) (hx : map_find objs x = some c) :
    ∃ c1, map_find (map_update (map_insert objs n new) b
              (fun o => o.set_children chs)) x = some c1 ∧
      c1.base.addr = c.base.addr ∧ c1.base.parent = c.base.parent ∧
      c1.subtype = c.subtype := by
  have hxn : x ≠ n := by
    rintro rfl
    rw [hn] at hx
    exact Option.noConfusion hx
  by_cases hxb : x = b
  · subst hxb
    have hc : bo = c := Option.some.inj (hbase.symm.trans hx)
    subst hc
    refine ⟨bo.set_children chs, ?_, (set_children_base bo chs).2.1,
      (set_children_base bo chs).2.2.1, (set_children_base bo chs).2.2.2⟩
    rw [map_find_update_self, map_find_insert_ne _ _ _ _ hxn, hbase]
    rfl
  · exact ⟨c, by rw [map_find_update_ne _ _ _ _ hxb, map_find_insert_ne _ _ _ _ hxn, hx],
      rfl, rfl, rfl⟩

theorem made_objs_keyed (objs : List (Nat × context_obj)) (n b : Nat)
    (new bo : context_obj) (f : flow_address)
    (hn : map_find objs n = none) (hbase : map_find objs b = some bo)
    (hnew : new.base.addr = f ∧ new.base.parent = some b ∧ new.base.children = [])
    (hkeyed : ∀ (a : Nat) (o : context_obj) (f1 : flow_address) (ch : Nat),
      map_find objs a = some o → map_find o.base.children f1 = some ch →
      ∃ c, map_find objs ch = some c ∧ c.base.addr = f1 ∧ c.base.parent = some a) :
    ∀ (a : Nat) (o : context_obj) (f1 : flow_address) (ch : Nat),
      map_find (map_update (map_insert objs n new) b
          (fun o => o.set_children (map_insert bo.base.children f n))) a = some o →
      map_find o.base.children f1 = some ch →
      ∃ c, map_find (map_update (map_insert objs n new) b
            (fun o => o.set_children (map_insert bo.base.children f n))) ch = some c ∧
        c.base.addr = f1 ∧ c.base.parent = some a := by
  obtain ⟨hfn, hfb, hcases⟩ := made_objs_facts objs n b new bo
    (fun o => o.set_children (map_insert bo.base.children f n)) hn hbase
  intro a o f1 ch ha hch
  have old : ∀ (a1 : Nat) (o1 : context_obj), map_find objs a1 = some o1 →
      map_find o1.base.children f1 = some ch →
      ∃ c, map_find (map_update (map_insert objs n new) b
            (fun o => o.set_children (map_insert bo.base.children f n))) ch = some c ∧
        c.base.addr = f1 ∧ c.base.parent = some a1 := by
    intro a1 o1 ha1 hch1
    obtain ⟨c, hc, hcaddr, hcpar⟩ := hkeyed a1 o1 f1 ch ha1 hch1
    obtain ⟨c1, hc1, haddr, hpar, -⟩ :=
      made_objs_keeps objs n b new bo (map_insert bo.base.children f n) hn hbase ch c hc
    exact ⟨c1, hc1, haddr.trans hcaddr, hpar.trans hcpar⟩
  rcases hcases a o ha with ⟨rfl, rfl⟩ | ⟨rfl, rfl⟩ | ⟨-, -, hold⟩
  · rw [hnew.2.2] at hch
    simp [map_find] at hch
  · rw [(set_children_base bo _).1] at hch
    by_cases hf : f1 = f
    · subst hf
      rw [map_find_insert_self] at hch
      have : n = ch := Option.some.inj hch
      subst this
      exact ⟨new, hfn, hnew.1, hnew.2.1⟩
    · rw [map_find_insert_ne _ _ _ _ hf] at hch
      exact old a bo hbase hch
  · exact old a o hold hch

theorem map_update_congr {K V : Type} [DecidableEq K] (m : List (K × V)) (k : K)
    (f1 f2 : V → V) (v : V) (hv : map_find m k = some v) (hf : f1 v = f2 v) :
    map_update m k f1 = map_update m k f2 := by
  induction m with
  | nil => rfl
  | cons kv m ih =>
    obtain ⟨k1, v1⟩ := kv
    by_cases hk : k1 = k
    · simp only [map_find, hk, if_true, Option.some.injEq] at hv
      subst hv
      simp [map_update, hk, hf]
    · simp only [map_find, hk, if_false] at hv
      simp [map_update, hk, ih hv]

/-- The store that `get_or_create` of the class `X` leaves when `base` holds no child under
`f`, and the pointer it returns. -/
theorem get_or_create_of_made {H : Type} (api : tcp_ports_t H) (u : unspecified)
    (X : subtype_t) (s : store H) (b : Nat) (bo : context_obj) (f : flow_address)
    (hbase : map_find s.objs b = some bo) (hch : map_find bo.base.children f = none) :
    ∃ s1 : store H,
      get_or_create_of api u X s (some b) f = some (s1, some (fresh_address s.objs)) ∧
      s1.objs = map_update
        (map_insert s.objs (fresh_address s.objs) (constructed api u s X f (some b))) b
        (fun o => o.set_children (map_insert bo.base.children f (fresh_address s.objs))) := by
  obtain ⟨hptr, hobjs⟩ := create_of_result api u s X f (some b)
  have hn := fresh_address_unused s.objs
  have hbn : b ≠ fresh_address s.objs := ne_fresh_address _ _ _ hbase
  have hfind : map_find
      (map_insert s.objs (fresh_address s.objs) (constructed api u s X f (some b))) b
      = some bo := by
    rw [map_find_insert_ne _ _ _ _ hbn, hbase]
  have hobjs1 : map_update (create_of api u X s f (some b)).1.objs b
        (fun o => o.set_children
          (map_insert o.base.children f (create_of api u X s f (some b)).2))
      = map_update
        (map_insert s.objs (fresh_address s.objs) (constructed api u s X f (some b))) b
        (fun o => o.set_children (map_insert bo.base.children f (fresh_address s.objs))) := by
    rw [hptr, hobjs]
    exact map_update_congr _ _ _ _ bo hfind rfl
  have hfn := (made_objs_facts s.objs (fresh_address s.objs) b
    (constructed api u s X f (some b)) bo
    (fun o => o.set_children (map_insert bo.base.children f (fresh_address s.objs)))
    hn hbase).1
  refine ⟨{ (create_of api u X s f (some b)).1 with
            objs := map_update (create_of api u X s f (some b)).1.objs b
              (fun o => o.set_children
                (map_insert o.base.children f (create_of api u X s f (some b)).2)) },
    ?_, hobjs1⟩
  rw [get_or_create_of_eq, context_get_or_create_made s b bo f _ hbase hch]
  simp only [hptr]
  have hcast : dynamic_pointer_cast
      { (create_of api u X s f (some b)).1 with
        objs := map_update (create_of api u X s f (some b)).1.objs b
          (fun o => o.set_children
            (map_insert o.base.children f (fresh_address s.objs))) }
      X (some (fresh_address s.objs)) = some (fresh_address s.objs) := by
    have hobjs2 := hobjs1
    rw [hptr] at hobjs2
    simp only [dynamic_pointer_cast, hobjs2, hfn,
      (constructed_fields api u s X f (some b)).1, if_true]
  rw [hcast]

theorem get_or_create_of_found {H : Type} (api : tcp_ports_t H) (u : unspecified)
    (X : subtype_t) (s : store H) (b : Nat) (bo : context_obj) (f : flow_address) (ch : Nat)
    (hbase : map_find s.objs b = some bo) (hch : map_find bo.base.children f = some ch) :
    get_or_create_of api u X s (some b) f = some (s, dynamic_pointer_cast s X (some ch)) := by
  rw [get_or_create_of_eq, context_get_or_create_found s b bo f _ ch hbase hch]

theorem dynamic_pointer_cast_live {H : Type} (s : store H) (X : subtype_t) (ch : Nat)
    (c : context_obj) (hc : map_find s.objs ch = some c) :
    dynamic_pointer_cast s X (some ch) = if c.subtype = some X then some ch else none := by
  simp [dynamic_pointer_cast, hc]

/-- C16, as the code has it: for a live parent `base` in a store whose children are stored
under their own flow address, `get_or_create` of each of the six classes, with a flow
address `f`:
when `base` holds no child under `f`, it makes an object of that class at an unused
address, with flow address `f` and parent `base`, stores it under `f` in `base` and returns
the pointer to it;
when `base` holds under `f` a child of that class, it returns that child, whose flow address
is `f`, and leaves the store as it is;
when `base` holds under `f` a child of another class, it returns a null pointer and leaves
the store as it is;
and a second call with the same `base` and `f` returns what the first call returned. -/
theorem get_or_create_spec {H : Type} (api : tcp_ports_t H) (u : unspecified)
    (X : subtype_t) (s : store H) (b : Nat) (bo : context_obj) (f : flow_address)
    (hbase : map_find s.objs b = some bo) (hkeyed : s.children_keyed) :
    (map_find bo.base.children f = none →
      ∃ (s1 : store H) (ch : Nat) (c : context_obj),
        get_or_create_of api u X s (some b) f = some (s1, some ch) ∧
        map_find s.objs ch = none ∧
        map_find s1.objs ch = some c ∧
        c.subtype = some X ∧ c.base.addr = f ∧ c.base.parent = some b ∧
        (∃ bo1, map_find s1.objs b = some bo1 ∧ map_find bo1.base.children f = some ch) ∧
        s1.children_keyed) ∧
    (∀ (ch : Nat) (c : context_obj),
      map_find bo.base.children f = some ch → map_find s.objs ch = some c →
      c.subtype = some X →
        get_or_create_of api u X s (some b) f = some (s, some ch) ∧
        c.base.addr = f ∧ c.base.parent = some b) ∧
    (∀ (ch : Nat) (c : context_obj),
      map_find bo.base.children f = some ch → map_find s.objs ch = some c →
      c.subtype ≠ some X →
        get_or_create_of api u X s (some b) f = some (s, none)) ∧
    (∀ (s1 : store H) (r : context_ptr),
      get_or_create_of api u X s (some b) f = some (s1, r) →
      get_or_create_of api u X s1 (some b) f = some (s1, r)) := by
  have hn := fresh_address_unused s.objs
  have hnewf := constructed_fields api u s X f (some b)
  refine ⟨?_, ?_, ?_, ?_⟩
  · intro hch
    obtain ⟨s1, hres, hobjs⟩ := get_or_create_of_made api u X s b bo f hbase hch
    obtain ⟨hfn, hfb, -⟩ := made_objs_facts s.objs (fresh_address s.objs) b
      (constructed api u s X f (some b)) bo
      (fun o => o.set_children (map_insert bo.base.children f (fresh_address s.objs)))
      hn hbase
    refine ⟨s1, fresh_address s.objs, constructed api u s X f (some b), hres, hn, ?_,
      hnewf.1, hnewf.2.1, hnewf.2.2.1,
      ⟨bo.set_children (map_insert bo.base.children f (fresh_address s.objs)), ?_, ?_⟩, ?_⟩
    · rw [hobjs]; exact hfn
    · rw [hobjs]; exact hfb
    · rw [(set_children_base bo _).1, map_find_insert_self]
    · unfold store.children_keyed
      rw [hobjs]
      exact made_objs_keyed s.objs (fresh_address s.objs) b _ bo f hn hbase
        ⟨hnewf.2.1, hnewf.2.2.1, hnewf.2.2.2⟩ hkeyed
  · intro ch c hch hc hX
    obtain ⟨c1, hc1, haddr, hpar⟩ := hkeyed b bo f ch hbase hch
    have hcc : c1 = c := Option.some.inj (hc1.symm.trans hc)
    subst hcc
    refine ⟨?_, haddr, hpar⟩
    rw [get_or_create_of_found api u X s b bo f ch hbase hch,
      dynamic_pointer_cast_live s X ch c1 hc, if_pos hX]
  · intro ch c hch hc hX
    rw [get_or_create_of_found api u X s b bo f ch hbase hch,
      dynamic_pointer_cast_live s X ch c hc, if_neg hX]
  · intro s1 r hres
    cases hch : map_find bo.base.children f with
    | some ch =>
      rw [get_or_create_of_found api u X s b bo f ch hbase hch] at hres
      have hs : s = s1 := (Prod.mk.inj (Option.some.inj hres)).1
      subst hs
      rw [get_or_create_of_found api u X s b bo f ch hbase hch]
      exact hres
    | none =>
      obtain ⟨s2, hres2, hobjs⟩ := get_or_create_of_made api u X s b bo f hbase hch
      rw [hres2] at hres
      obtain ⟨hs, hr⟩ := Prod.mk.inj (Option.some.inj hres)
      subst hs
      subst hr
      obtain ⟨hfn, hfb, -⟩ := made_objs_facts s.objs (fresh_address s.objs) b
        (constructed api u s X f (some b)) bo
        (fun o => o.set_children (map_insert bo.base.children f (fresh_address s.objs)))
        hn hbase
      rw [← hobjs] at hfn hfb
      have hchild : map_find
          (bo.set_children (map_insert bo.base.children f (fresh_address s.objs))).base.children
          f = some (fresh_address s.objs) := by
        rw [(set_children_base bo _).1, map_find_insert_self]
      rw [get_or_create_of_found api u X s2 b _ f _ hfb hchild,
        dynamic_pointer_cast_live s2 X _ _ hfn, if_pos hnewf.1]

theorem example_store_children_keyed : example_store.children_keyed := by
  intro a o f ch ha hch
  have hcases : a = 1 ∧ o = context_obj.other example_unspecified.base := by
    by_cases h1 : 1 = a
    · simp only [example_store, map_find, h1, if_true, Option.some.injEq] at ha
      exact ⟨h1.symm, ha.symm⟩
    · simp [example_store, map_find, h1] at ha
  obtain ⟨-, rfl⟩ := hcases
  simp [context_obj.base, example_unspecified, map_find] at hch

/-- Witness for `get_or_create_spec`: in the store of the examples the object at address 1
gets a child by `http_request_context::get_or_create`; the same call again returns that
child, and `tcp_context::get_or_create` with the same flow address returns a null
pointer. -/
theorem get_or_create_spec_witness :
    map_find example_store.objs 1 = some (context_obj.other example_unspecified.base) ∧
    example_store.children_keyed ∧
    ∃ (s1 : store Bool) (ch : Nat),
      get_or_create_of example_api example_unspecified subtype_t.http_request
        example_store (some 1) example_flow = some (s1, some ch) ∧
      get_or_create_of example_api example_unspecified subtype_t.http_request
        s1 (some 1) example_flow = some (s1, some ch) ∧
      get_or_create_of example_api example_unspecified subtype_t.tcp
        s1 (some 1) example_flow = some (s1, none) := by
  refine ⟨rfl, example_store_children_keyed, ?_⟩
  obtain ⟨s1, ch, c, hres, -, hc, hsub, -, -, ⟨bo1, hb1, hchild⟩, hkeyed1⟩ :=
    (get_or_create_spec example_api example_unspecified subtype_t.http_request
      example_store 1 (context_obj.other example_unspecified.base) example_flow rfl
      example_store_children_keyed).1 rfl
  refine ⟨s1, ch, hres, ?_, ?_⟩
  · exact ((get_or_create_spec example_api example_unspecified subtype_t.http_request
      s1 1 bo1 example_flow hb1 hkeyed1).2.1 ch c hchild hc hsub).1
  · refine (get_or_create_spec example_api example_unspecified subtype_t.tcp
      s1 1 bo1 example_flow hb1 hkeyed1).2.2.1 ch c hchild hc ?_
    rw [hsub]
    decide

/-- C16 as stated fails: in the store of the examples,
`http_request_context::get_or_create` gives the object at address 1 a child under the flow
address of the examples, at address 2; `tcp_context::get_or_create` with the same parent
and flow address then returns a null pointer, and so does it when called again. -/
theorem get_or_create_other_subtype_null :
    ∃ s1 : store Bool,
      http_request_context.get_or_create example_unspecified example_store (some 1)
        example_flow = some (s1, some 2) ∧
      (∃ bo1, map_find s1.objs 1 = some bo1 ∧
        map_find bo1.base.children example_flow = some 2) ∧
      tcp_context.get_or_create example_api example_unspecified s1 (some 1) example_flow
        = some (s1, none) :=
  ⟨_, rfl, ⟨_, rfl, rfl⟩, rfl⟩

end Cyberprobe
